import Mathlib

/-!
# ziti-bgp `xdp_app`: the embedded XDP program `udpfilter`

Shallow embedding of the C program held in the `source` string of
`src/xdp_app/main.go` (lines 20-129) and theorems about it.

Modelling conventions

* A frame is the byte range `[data, data_end)`; it is a `List` of bytes and an
  offset `off` stands for the pointer `data + off`.  The pointer comparison
  `data + off > data_end` is `off > data.length`.
* Every field access of the source is a checked load or store: it yields
  `none` when one of the bytes it touches lies at or beyond `data_end`.  A
  result `none` of a parser therefore means "the program touched memory
  outside the frame"; ordinary results are `some _`.
* The host is little-endian (x86-64, arm64): a 16-bit field is loaded as
  `byte0 + 256 * byte1` and `htons` swaps the two bytes.
* `int`, `__u8`, `__u16` values are natural numbers (no value of the program
  is negative); the 64-bit counters wrap modulo `2 ^ 64`.
* The Go function `main` (lines 137-214) is the list of events of a run, as a
  function of its environment (`World`): the arguments, the errors that the
  `gobpf` calls return and the signals sent to the process.  A run ends through
  `os.Exit` or through the default action of a signal that line 178 does not
  register.  One pass of the reporting loop is `reportPass`.
* Offsets are natural numbers.  The parsers are described at offsets for which
  the pointer `data + off` does not wrap around `2 ^ 64`; `udpfilter` passes
  14, 18 or 22 to `parse_ipv4` and `parse_ipv6`, and 20 more to `parse_udp`.
-/

namespace XdpApp

/-! ## Data model -/

/-- One byte of packet memory. -/
abbrev Byte := Fin 256

/-- The packet bytes between `ctx->data` and `ctx->data_end`. -/
abbrev Frame := List Byte

/-- The table `BPF_TABLE("array", int, long, dropcnt, 256)`: 256 cells of 64 bits. -/
abbrev CounterTable := Fin 256 → Nat

/-- The C struct `pkt_meta` (lines 33-40); `port16` overlays `ports`. -/
structure pkt_meta where
  src : Nat := 0
  dst : Nat := 0
  port16 : Nat × Nat := (0, 0)
deriving DecidableEq, Repr

/-! ## Constants -/

/-- Value of `XDP_DROP` in `enum xdp_action` of the kernel header `uapi/linux/bpf.h`. -/
def XDP_DROP : Nat := 1

/-- Value of `XDP_PASS` in `enum xdp_action` of the kernel header `uapi/linux/bpf.h`. -/
def XDP_PASS : Nat := 2

/-- Line 30: `#define IP_FRAGMENTED 65343`. -/
def IP_FRAGMENTED : Nat := 65343

/-- Line 31: `#define UDP_PORT 6081`. -/
def UDP_PORT : Nat := 6081

/-- 802.1Q tag protocol identifier (`linux/if_ether.h`). -/
def ETH_P_8021Q : Nat := 0x8100

/-- 802.1AD tag protocol identifier (`linux/if_ether.h`). -/
def ETH_P_8021AD : Nat := 0x88A8

/-- Ethertype of IPv4 (`linux/if_ether.h`). -/
def ETH_P_IP : Nat := 0x0800

/-- Ethertype of IPv6 (`linux/if_ether.h`). -/
def ETH_P_IPV6 : Nat := 0x86DD

/-- IP protocol number of UDP (`linux/in.h`). -/
def IPPROTO_UDP : Nat := 17

/-- The macro `RETURNCODE`: `main` compiles the program with
`-DRETURNCODE=XDP_PASS` (lines 146-151). -/
def RETURNCODE : Nat := XDP_PASS

/-- Size in bytes of `struct ethhdr`. -/
def sizeof_ethhdr : Nat := 14

/-- Size in bytes of `struct vlan_hdr`. -/
def sizeof_vlan_hdr : Nat := 4

/-- Size in bytes of `struct iphdr`. -/
def sizeof_iphdr : Nat := 20

/-- Size in bytes of `struct ipv6hdr`. -/
def sizeof_ipv6hdr : Nat := 40

/-- Size in bytes of `struct udphdr`. -/
def sizeof_udphdr : Nat := 8

/-! ## Packet memory -/

/-- Checked load of the byte at `data + off`. -/
def load8 (data : Frame) (off : Nat) : Option Nat :=
  data[off]?.map Fin.val

/-- Checked load of a 16-bit field at `data + off` on the little-endian host. -/
def load16 (data : Frame) (off : Nat) : Option Nat :=
  (load8 data off).bind fun b0 =>
  (load8 data (off + 1)).bind fun b1 =>
  some (b0 + 256 * b1)

/-- Checked load of a 32-bit field at `data + off` on the little-endian host. -/
def load32 (data : Frame) (off : Nat) : Option Nat :=
  (load16 data off).bind fun w0 =>
  (load16 data (off + 2)).bind fun w1 =>
  some (w0 + 65536 * w1)

/-- The byte `v mod 256`. -/
def toByte (v : Nat) : Byte := ⟨v % 256, Nat.mod_lt v (by decide)⟩

/-- Checked store of the 16-bit value `v` at `data + off` on the little-endian host. -/
def store16 (data : Frame) (off : Nat) (v : Nat) : Option Frame :=
  if off + 1 < data.length then
    some ((data.set off (toByte v)).set (off + 1) (toByte (v / 256)))
  else
    none

/-- The C function `htons` on the little-endian host: swap the bytes of a 16-bit value. -/
def htons (v : Nat) : Nat := (v % 256) * 256 + (v / 256) % 256

/-- The C function `bpf_ntohs` on the little-endian host: the same byte swap. -/
def bpf_ntohs (v : Nat) : Nat := htons v

/-! ## The parsers -/

/-- The C function `parse_udp` (lines 43-55).  Returns the boolean result, the
packet memory after the call and the `pkt_meta` written through `pkt`.  The
offset `off` is one at which the pointer `data + off` does not wrap, as are the
offsets 34, 38 and 42 that `parse_ipv4` passes when called from `udpfilter`. -/
def parse_udp (data : Frame) (off : Nat) (pkt : pkt_meta) :
    Option (Bool × Frame × pkt_meta) :=
  let udp := off
  if udp + sizeof_udphdr > data.length then
    some (false, data, pkt)
  else
    (load16 data udp).bind fun source =>
    (load16 data (udp + 2)).bind fun dest =>
    let pkt := { pkt with port16 := (source, dest) }
    (load16 data (udp + 2)).bind fun dest2 =>
    if dest2 = htons UDP_PORT then
      (store16 data (udp + 2) (htons 6082)).bind fun data2 =>
      some (true, data2, pkt)
    else
      some (true, data, pkt)

/-- The C function `parse_ipv4` (lines 56-78).  Returns the `int` result and the
packet memory after the call.  The offset `nh_off` is one at which the pointer
`data + nh_off` does not wrap, as are the offsets 14, 18 and 22 that `udpfilter`
passes. -/
def parse_ipv4 (data : Frame) (nh_off : Nat) : Option (Nat × Frame) :=
  let iph := nh_off
  let pkt : pkt_meta := {}
  if iph + sizeof_iphdr > data.length then
    some (0, data)
  else
    (load8 data (iph + 9)).bind fun protocol =>
    (load16 data (iph + 2)).bind fun tot_len =>
    let _payload_len := bpf_ntohs tot_len
    let nh_off := nh_off + sizeof_iphdr
    (load16 data (iph + 6)).bind fun frag_off =>
    if frag_off &&& IP_FRAGMENTED ≠ 0 then
      some (XDP_DROP, data)
    else
      (load32 data (iph + 12)).bind fun saddr =>
      (load32 data (iph + 16)).bind fun daddr =>
      let pkt := { pkt with src := saddr, dst := daddr }
      if protocol = IPPROTO_UDP then
        (parse_udp data nh_off pkt).bind fun r =>
        if r.1 then some (protocol, r.2.1) else some (protocol, r.2.1)
      else
        some (protocol, data)

/-- The C function `parse_ipv6` (lines 79-85).  The offset `nh_off` is one at which
the pointer `data + nh_off` does not wrap, as are the offsets 14, 18 and 22 that
`udpfilter` passes. -/
def parse_ipv6 (data : Frame) (nh_off : Nat) : Option Nat :=
  let ip6h := nh_off
  if ip6h + sizeof_ipv6hdr > data.length then
    some 0
  else
    load8 data (ip6h + 6)

/-! ## The counter table -/

/-- The call `dropcnt.lookup(&index)`: the cell of key `index`, or `NULL` (`none`)
when the key is outside the 256-entry array. -/
def lookup (index : Nat) : Option (Fin 256) :=
  if h : index < 256 then some ⟨index, h⟩ else none

/-- The call `lock_xadd(value, 1)` on the cell `cell`: add 1 to the 64-bit cell. -/
def lock_xadd (dropcnt : CounterTable) (cell : Fin 256) : CounterTable :=
  Function.update dropcnt cell ((dropcnt cell + 1) % 2 ^ 64)

/-! ## The XDP program -/

/-- What one run of `udpfilter` leaves behind: the returned action `rc`, the
packet memory, the counter table, and (for the statements below) the `index`
handed to `dropcnt.lookup`, `none` when the run returned before line 125. -/
structure Outcome where
  rc : Nat
  frame : Frame
  table : CounterTable
  index : Option Nat

/-- How one of the two VLAN blocks of `udpfilter` ends. -/
inductive VlanStep where
  | fault : VlanStep
  | ret : VlanStep
  | next (nh_off h_proto : Nat) : VlanStep
deriving DecidableEq, Repr

/-- The block of lines 103-110, which the source repeats verbatim as lines
111-118: `fault` is an access outside the frame, `ret` is `return rc`, and
`next` carries `nh_off` and `h_proto` to the code after the block. -/
def vlan_block (data : Frame) (nh_off h_proto : Nat) : VlanStep :=
  if h_proto = htons ETH_P_8021Q ∨ h_proto = htons ETH_P_8021AD then
    let vhdr := nh_off
    let nh_off := nh_off + sizeof_vlan_hdr
    if nh_off > data.length then
      .ret
    else
      match load16 data (vhdr + 2) with
      | none => .fault
      | some h_proto => .next nh_off h_proto
  else
    .next nh_off h_proto

/-- Lines 119-127 of `udpfilter`: the dispatch on `h_proto`, the counter
update and `return rc`. -/
def dispatch (data : Frame) (dropcnt : CounterTable) (rc nh_off h_proto : Nat) :
    Option Outcome :=
  let parsed : Option (Nat × Frame) :=
    if h_proto = htons ETH_P_IP then
      parse_ipv4 data nh_off
    else if h_proto = htons ETH_P_IPV6 then
      (parse_ipv6 data nh_off).map fun index => (index, data)
    else
      some (0, data)
  parsed.bind fun r =>
  match lookup r.1 with
  | some value => some ⟨rc, r.2, lock_xadd dropcnt value, some r.1⟩
  | none => some ⟨rc, r.2, dropcnt, some r.1⟩

/-- The C function `udpfilter` (lines 86-128), the XDP entry point. -/
def udpfilter (data : Frame) (dropcnt : CounterTable) : Option Outcome :=
  let rc := RETURNCODE
  let nh_off := sizeof_ethhdr
  if nh_off > data.length then
    some ⟨rc, data, dropcnt, none⟩
  else
    (load16 data 12).bind fun h_proto =>
    match vlan_block data nh_off h_proto with
    | .fault => none
    | .ret => some ⟨rc, data, dropcnt, none⟩
    | .next nh_off h_proto =>
      match vlan_block data nh_off h_proto with
      | .fault => none
      | .ret => some ⟨rc, data, dropcnt, none⟩
      | .next nh_off h_proto => dispatch data dropcnt rc nh_off h_proto

/-! ## Wire-format vocabulary used in the statements -/

/-- The byte at offset `off` of the frame as a number (0 beyond the end). -/
def byteAt (data : Frame) (off : Nat) : Nat := (data.getD off 0).val

/-- The 16-bit value that the two bytes at `off` carry on the wire (network
byte order: most significant byte first). -/
def be16 (data : Frame) (off : Nat) : Nat := 256 * byteAt data off + byteAt data (off + 1)

/-- A tag protocol identifier: 0x8100 (802.1Q) or 0x88A8 (802.1AD). -/
def isTPID (v : Nat) : Prop := v = 0x8100 ∨ v = 0x88A8

instance (v : Nat) : Decidable (isTPID v) := by unfold isTPID; infer_instance

/-- Number of leading VLAN tags of the frame, counted up to two. -/
def vlanTags (data : Frame) : Nat :=
  if isTPID (be16 data 12) then (if isTPID (be16 data 16) then 2 else 1) else 0

/-- Offset of the layer-3 header: the Ethernet header and the leading VLAN tags. -/
def l3Offset (data : Frame) : Nat := 14 + 4 * vlanTags data

/-- The ethertype that follows the leading VLAN tags, as carried on the wire. -/
def etherType (data : Frame) : Nat := be16 data (12 + 4 * vlanTags data)

/-- The More-Fragments flag of the IPv4 header at `l3` (bit 0x20 of header byte 6). -/
def moreFragments (data : Frame) (l3 : Nat) : Bool := byteAt data (l3 + 6) / 32 % 2 = 1

/-- The 13-bit fragment offset of the IPv4 header at `l3`. -/
def fragmentOffset (data : Frame) (l3 : Nat) : Nat :=
  byteAt data (l3 + 6) % 32 * 256 + byteAt data (l3 + 7)

/-- The fragmentation marker of the IPv4 header at `l3`: More-Fragments is set
or the fragment offset is not zero. -/
def fragmented (data : Frame) (l3 : Nat) : Prop :=
  moreFragments data l3 = true ∨ fragmentOffset data l3 ≠ 0

instance (data : Frame) (l3 : Nat) : Decidable (fragmented data l3) := by
  unfold fragmented; infer_instance

/-- The protocol byte of the IPv4 header at `l3`. -/
def ipProtocol (data : Frame) (l3 : Nat) : Nat := byteAt data (l3 + 9)

/-- The table that `increment`s cell `i` of `t` once, modulo `2 ^ 64`. -/
def bump (t : CounterTable) (i : Nat) : CounterTable :=
  fun j => if j.val = i then (t j + 1) % 2 ^ 64 else t j

/-- The IPv4 header length in bytes announced by the IHL field (low nibble of
the first header byte) of the header at `l3`. -/
def ipHeaderLen (data : Frame) (l3 : Nat) : Nat := 4 * (byteAt data l3 % 16)

/-- The condition under which the port rewrite fires: the ethertype after the
leading VLAN tags is IPv4, the frame holds 28 bytes from the layer-3 offset on,
the protocol byte is 17, the fragmentation marker is clear and the two bytes at
layer-3 offset + 22 are 0x17 0xC1 (6081). -/
def rewriteFires (data : Frame) : Prop :=
  etherType data = ETH_P_IP ∧ l3Offset data + 28 ≤ data.length ∧
    ipProtocol data (l3Offset data) = 17 ∧ ¬ fragmented data (l3Offset data) ∧
    byteAt data (l3Offset data + 22) = 0x17 ∧ byteAt data (l3Offset data + 23) = 0xC1

instance (data : Frame) : Decidable (rewriteFires data) := by
  unfold rewriteFires; infer_instance

/-! ## VLAN tagging -/

/-- One VLAN tag as inserted on the wire: the tag protocol identifier (0x88A8 when
`ad` is set, 0x8100 otherwise) and the two bytes of tag control information. -/
structure VlanTag where
  ad : Bool
  tci0 : Byte
  tci1 : Byte
deriving DecidableEq, Repr

/-- The tag protocol identifier of the tag. -/
def VlanTag.tpid (t : VlanTag) : Nat := if t.ad then ETH_P_8021AD else ETH_P_8021Q

/-- The four bytes of the tag in wire order. -/
def VlanTag.wire (t : VlanTag) : List Byte :=
  [toByte (t.tpid / 256), toByte t.tpid, t.tci0, t.tci1]

/-- The bytes of a stack of tags, outermost first. -/
def tagBytes : List VlanTag → List Byte
  | [] => []
  | t :: ts => t.wire ++ tagBytes ts

/-- The frame with the tags inserted after the two MAC addresses (12 bytes). -/
def insertTags (tags : List VlanTag) (data : Frame) : Frame :=
  data.take 12 ++ (tagBytes tags ++ data.drop 12)

/-- The outcome with the frame replaced by its image under `g`. -/
def Outcome.mapFrame (g : Frame → Frame) (r : Outcome) : Outcome := { r with frame := g r.frame }

/-- The outcome with a prefix put in front of the frame. -/
def Outcome.behind (pre : Frame) (r : Outcome) : Outcome := r.mapFrame (pre ++ ·)

/-! ## Runs over several frames -/

/-- The counter table after the driver has handed the frames of the list to
`udpfilter` one after the other, starting from the table `dropcnt`. -/
def runFrames : List Frame → CounterTable → Option CounterTable
  | [], dropcnt => some dropcnt
  | data :: rest, dropcnt => (udpfilter data dropcnt).bind fun r => runFrames rest r.table

/-- The index that `udpfilter` counts for the frame; `none` when `udpfilter`
returns before the counting step. -/
def classify (data : Frame) : Option Nat :=
  (udpfilter data (fun _ => 0)).bind fun r => r.index

/-- Number of frames of the list that are classified to index `i`. -/
def classifiedTo (i : Nat) (frames : List Frame) : Nat :=
  (frames.filter fun data => classify data = some i).length

/-- The table after a run that counted `index` (or nothing). -/
def tableAfter (dropcnt : CounterTable) (index : Option Nat) : CounterTable :=
  match index with
  | none => dropcnt
  | some i => bump dropcnt i

/-! ## The Go program: life cycle and reporting loop -/

/-- The signals that `main.go` names (`syscall.SIGHUP`, `syscall.SIGINT`,
`syscall.SIGTERM`). -/
inductive Signal where
  | SIGHUP : Signal
  | SIGINT : Signal
  | SIGTERM : Signal
deriving DecidableEq, Repr

/-- What a run of the process does that its environment observes: text written to
standard output or standard error, the calls `module.Load`, `module.AttachXDP`,
`module.RemoveXDP` and `os.Exit`, and the end of the process by the default
action of a signal (`killed`). -/
inductive Event where
  | stdout (text : String) : Event
  | stderr (text : String) : Event
  | load : Event
  | attachXDP (device : String) : Event
  | removeXDP (device : String) : Event
  | osExit (status : Nat) : Event
  | killed (sig : Signal) : Event
deriving DecidableEq, Repr

/-- The environment of one run of `main`: the program name `os.Args[0]`, the
other arguments `os.Args[1:]`, the error returned by `module.Load`,
`module.AttachXDP` and `module.RemoveXDP` (`none` for `nil`), and the signals
that are sent to the process once line 178 has run, in order. -/
structure World where
  prog : String
  params : List String
  loadErr : Option String
  attachErr : Option String
  removeErr : Option String
  signals : List Signal
deriving Repr

/-- Line 178, `signal.Notify(sigCh, syscall.SIGTERM, syscall.SIGINT)`: the signals
that are relayed to `sigCh`.  Any other signal keeps its default action, which
for `SIGHUP` ends the process. -/
def notified (sig : Signal) : Bool :=
  match sig with
  | .SIGTERM => true
  | .SIGINT => true
  | .SIGHUP => false

/-- The values that line 178 relays to `sigCh`: the registered signals among
those sent to the process, in order. -/
def World.sigCh (w : World) : List Signal := w.signals.filter notified

/-- The Go function `usage` (lines 131-135). -/
def usage (w : World) : List Event :=
  [.stdout ("Usage: " ++ w.prog ++ " <ifdev>\n"),
   .stdout ("e.g.: " ++ w.prog ++ " eth0\n"),
   .osExit 1]

/-- The loop `for sig := range sigCh` of lines 187-199 under the signals that are
still to be sent to the process; it blocks (no further event) when none is left.
A registered signal arrives on `sigCh` and the body of the loop runs on it; a
signal that line 178 did not register is not relayed and its default action ends
the process. -/
def rangeLoop (w : World) (device : String) : List Signal → List Event
  | [] => []
  | sig :: rest =>
    if notified sig = true then
      if sig ≠ Signal.SIGHUP then
        [Event.removeXDP device] ++
          (match w.removeErr with
            | some err =>
              [Event.stderr ("Failed to remove XDP from " ++ device ++ ": " ++ err ++ "\n")]
            | none => [Event.stdout ("Removed XDP from " ++ device ++ "\n")]) ++
          [Event.osExit 1]
      else
        rangeLoop w device rest
    else
      [Event.killed sig]

/-- The goroutine of lines 185-200 under the signals sent to the process: the
receive `<-sigCh` of line 186 takes the first registered signal and drops its
value, and then the loop runs under the signals that follow.  A signal that
line 178 did not register ends the process. -/
def signalGoroutine (w : World) (device : String) : List Signal → List Event
  | [] => []
  | sig :: rest =>
    if notified sig = true then
      rangeLoop w device rest
    else
      [Event.killed sig]

/-- The Go function `main` (lines 137-214) as the list of events of the run.
`os.Exit` ends the run without running deferred calls.  The deferred calls of
line 154 (`module.Close`) and lines 168-172 (`module.RemoveXDP`) would run when
`main` returns; `main` ends in the unconditional `for` of line 203, so they never
run and have no event.  The lines that this `for` prints are left out here (see
`reportPass`); it calls neither `RemoveXDP` nor `os.Exit`.  The events of the
goroutine of lines 185-200, which runs beside the main goroutine, are listed
after those of the main goroutine. -/
def main (w : World) : List Event :=
  match w.params with
  | [device] =>
    match w.loadErr with
    | some err =>
      [.load, .stderr ("Failed to load xdp prog: " ++ err ++ "\n"), .osExit 1]
    | none =>
      match w.attachErr with
      | some err =>
        [.load, .attachXDP device,
         .stderr ("Failed to attach xdp prog: " ++ err ++ "\n"), .osExit 1]
      | none =>
        [.load, .attachXDP device, .stdout "Passing packets, hit CTRL+C to stop\n",
         .stdout "\n\x7bIP protocol-number\x7d: \x7btotal dropped pkts\x7d\n"] ++
          signalGoroutine w device w.signals
  | _ => usage w

/-- The status of the `os.Exit` that ends the run, `none` when the run does not
end through `os.Exit`. -/
def exitStatus : List Event → Option Nat
  | [] => none
  | .osExit status :: _ => some status
  | _ :: rest => exitStatus rest

/-- The signal whose default action ends the run, `none` when no signal does. -/
def killedBy : List Event → Option Signal
  | [] => none
  | .killed sig :: _ => some sig
  | _ :: rest => killedBy rest

/-- The run ends: through `os.Exit` or through the default action of a signal. -/
def ended (run : List Event) : Bool :=
  (exitStatus run).isSome || (killedBy run).isSome

/-- Number of calls of `module.RemoveXDP` in the run. -/
def detachCalls : List Event → Nat
  | [] => 0
  | .removeXDP _ :: rest => 1 + detachCalls rest
  | _ :: rest => detachCalls rest

/-- The filter was attached: one argument, `Load` and `AttachXDP` without error. -/
def attached (w : World) : Prop :=
  (∃ device, w.params = [device]) ∧ w.loadErr = none ∧ w.attachErr = none

/-- One entry that the iterator of `dropcnt.Iter()` yields: the four bytes of
`it.Key()` and the eight bytes of `it.Leaf()`. -/
structure Entry where
  key : Fin 4 → Byte
  leaf : Fin 8 → Byte

/-- The call `bpf.GetHostByteOrder().Uint32` on the little-endian host. -/
def hostUint32 (b : Fin 4 → Byte) : Nat :=
  (b 0).val + 256 * (b 1).val + 65536 * (b 2).val + 16777216 * (b 3).val

/-- The call `bpf.GetHostByteOrder().Uint64` on the little-endian host. -/
def hostUint64 (b : Fin 8 → Byte) : Nat :=
  (b 0).val + 256 * (b 1).val + 65536 * (b 2).val + 16777216 * (b 3).val +
    4294967296 * ((b 4).val + 256 * (b 5).val + 65536 * (b 6).val + 16777216 * (b 7).val)

/-- The body of the inner loop (lines 205-210): the lines it writes to standard
output for one entry. -/
def reportEntry (e : Entry) : List String :=
  let key := hostUint32 e.key
  let value := hostUint64 e.leaf
  if value > 0 then
    [toString key ++ ": " ++ toString value ++ " pkts\n"]
  else
    []

/-- One pass of the inner loop of lines 204-211 over the entries that the
iterator yields, in its order; `out` is what standard output holds so far. -/
def reportPass : List Entry → List String → List String
  | [], out => out
  | e :: rest, out => reportPass rest (out ++ reportEntry e)

/-- The line `<key>: <count> pkts` of an entry. -/
def reportLine (e : Entry) : String :=
  toString (hostUint32 e.key) ++ ": " ++ toString (hostUint64 e.leaf) ++ " pkts\n"

/-- A run in which `eth0` is attached and one SIGINT arrives. -/
def oneSignalWorld : World :=
  ⟨"xdp_app", ["eth0"], none, none, none, [Signal.SIGINT]⟩

/-- A run in which `eth0` is attached, a SIGINT and then a SIGTERM arrive, and
`RemoveXDP` fails. -/
def twoSignalWorld : World :=
  ⟨"xdp_app", ["eth0"], none, none, some "no such device", [Signal.SIGINT, Signal.SIGTERM]⟩

/-- A run in which `eth0` is attached and one SIGHUP is sent to the process. -/
def hangupWorld : World :=
  ⟨"xdp_app", ["eth0"], none, none, none, [Signal.SIGHUP]⟩

/-! ## Concrete frames -/

/-- The counter table with every cell zero. -/
def zeroTable : CounterTable := fun _ => 0

/-- Scenario A: Ethernet, IPv4 (IHL 5, Don't-Fragment set, protocol 17), UDP from
port 12345 to port 6081, no payload. -/
def udpFrame : Frame :=
  [0x02, 0x00, 0x00, 0x00, 0x00, 0x01, 0x02, 0x00, 0x00, 0x00, 0x00, 0x02, 0x08, 0x00,
   0x45, 0x00, 0x00, 0x1c, 0x00, 0x01, 0x40, 0x00, 0x40, 0x11, 0x26, 0xce,
   0x0a, 0x00, 0x00, 0x01, 0x0a, 0x00, 0x00, 0x02,
   0x30, 0x39, 0x17, 0xc1, 0x00, 0x08, 0x00, 0x00]

/-- The frame of scenario A with a 24-byte IPv4 header (IHL 6: three NOP options
and an end-of-list byte); the UDP header starts at offset 38. -/
def optionFrame : Frame :=
  [0x02, 0x00, 0x00, 0x00, 0x00, 0x01, 0x02, 0x00, 0x00, 0x00, 0x00, 0x02, 0x08, 0x00,
   0x46, 0x00, 0x00, 0x20, 0x00, 0x01, 0x40, 0x00, 0x40, 0x11, 0x23, 0xc9,
   0x0a, 0x00, 0x00, 0x01, 0x0a, 0x00, 0x00, 0x02, 0x01, 0x01, 0x01, 0x00,
   0x30, 0x39, 0x17, 0xc1, 0x00, 0x08, 0x00, 0x00]

/-- Scenario B: the frame of scenario A as a first fragment (More-Fragments set,
fragment offset 0, protocol 17). -/
def fragFrame : Frame :=
  [0x02, 0x00, 0x00, 0x00, 0x00, 0x01, 0x02, 0x00, 0x00, 0x00, 0x00, 0x02, 0x08, 0x00,
   0x45, 0x00, 0x00, 0x1c, 0x00, 0x01, 0x20, 0x00, 0x40, 0x11, 0x46, 0xce,
   0x0a, 0x00, 0x00, 0x01, 0x0a, 0x00, 0x00, 0x02,
   0x30, 0x39, 0x17, 0xc1, 0x00, 0x08, 0x00, 0x00]

/-- An IPv4 frame of protocol 17 that ends after the first four bytes of the UDP
header. -/
def cutUdpFrame : Frame :=
  [0x02, 0x00, 0x00, 0x00, 0x00, 0x01, 0x02, 0x00, 0x00, 0x00, 0x00, 0x02, 0x08, 0x00,
   0x45, 0x00, 0x00, 0x18, 0x00, 0x01, 0x00, 0x00, 0x40, 0x11, 0x66, 0xd2,
   0x0a, 0x00, 0x00, 0x01, 0x0a, 0x00, 0x00, 0x02,
   0x30, 0x39, 0x17, 0xc1]

/-- Scenario D: a 20-byte frame, an Ethernet header of ethertype IPv4 followed by
six bytes. -/
def shortFrame : Frame :=
  [0x02, 0x00, 0x00, 0x00, 0x00, 0x01, 0x02, 0x00, 0x00, 0x00, 0x00, 0x02, 0x08, 0x00,
   0x45, 0x00, 0x00, 0x1c, 0x00, 0x01]

/-- A 14-byte frame: an Ethernet header of ethertype 0x8100 and nothing after it. -/
def tagOnlyFrame : Frame :=
  [0x02, 0x00, 0x00, 0x00, 0x00, 0x01, 0x02, 0x00, 0x00, 0x00, 0x00, 0x02, 0x81, 0x00]

/-- Ethernet behind an 802.1AD tag and an 802.1Q tag, IPv6 with next header 17,
UDP from port 12345 to port 6081. -/
def ipv6UdpFrame : Frame :=
  [0x02, 0x00, 0x00, 0x00, 0x00, 0x01, 0x02, 0x00, 0x00, 0x00, 0x00, 0x02, 0x88, 0xa8,
   0x00, 0x64, 0x81, 0x00, 0x20, 0x07, 0x86, 0xdd, 0x60, 0x00, 0x00, 0x00, 0x00, 0x08,
   0x11, 0x40, 0x20, 0x01, 0x0d, 0xb8, 0x00, 0x00, 0x00, 0x00, 0x00, 0x00, 0x00, 0x00,
   0x00, 0x00, 0x00, 0x01, 0x20, 0x01, 0x0d, 0xb8, 0x00, 0x00, 0x00, 0x00, 0x00, 0x00,
   0x00, 0x00, 0x00, 0x00, 0x00, 0x02, 0x30, 0x39, 0x17, 0xc1, 0x00, 0x08, 0x00, 0x00]

/-- An ARP request in an Ethernet broadcast frame (ethertype 0x0806). -/
def arpFrame : Frame :=
  [0xff, 0xff, 0xff, 0xff, 0xff, 0xff, 0x02, 0x00, 0x00, 0x00, 0x00, 0x02, 0x08, 0x06,
   0x00, 0x01, 0x08, 0x00, 0x06, 0x04, 0x00, 0x01, 0x02, 0x00, 0x00, 0x00, 0x00, 0x02,
   0x0a, 0x00, 0x00, 0x01, 0x00, 0x00, 0x00, 0x00, 0x00, 0x00, 0x0a, 0x00, 0x00, 0x02]

/-! ## Memory lemmas -/

theorem byteAt_lt (data : Frame) (off : Nat) : byteAt data off < 256 :=
  (data.getD off 0).isLt

theorem load8_of_lt {data : Frame} {off : Nat} (h : off < data.length) :
    load8 data off = some (byteAt data off) := by
  simp [load8, byteAt, List.getElem?_eq_getElem h]

theorem load16_of_lt {data : Frame} {off : Nat} (h : off + 1 < data.length) :
    load16 data off = some (byteAt data off + 256 * byteAt data (off + 1)) := by
  simp [load16, load8_of_lt (show off < data.length by omega), load8_of_lt h]

theorem load32_of_lt {data : Frame} {off : Nat} (h : off + 3 < data.length) :
    load32 data off = some (byteAt data off + 256 * byteAt data (off + 1)
      + 65536 * (byteAt data (off + 2) + 256 * byteAt data (off + 2 + 1))) := by
  simp [load32, load16_of_lt (show off + 1 < data.length by omega),
    load16_of_lt (show off + 2 + 1 < data.length by omega)]

theorem le16_eq_htons_iff {a b v : Nat} (ha : a < 256) (hb : b < 256) (hv : v < 65536) :
    a + 256 * b = htons v ↔ 256 * a + b = v := by
  unfold htons
  have h1 : v / 256 < 256 := by omega
  have h2 : v / 256 % 256 = v / 256 := Nat.mod_eq_of_lt h1
  have h3 : v = 256 * (v / 256) + v % 256 := by omega
  have h4 : v % 256 < 256 := by omega
  rw [h2]
  generalize v / 256 = q at *
  generalize v % 256 = r at *
  subst h3
  constructor <;> intro h <;> omega

theorem be16_lt (data : Frame) (off : Nat) : be16 data off < 65536 := by
  have ha := byteAt_lt data off
  have hb := byteAt_lt data (off + 1)
  unfold be16
  omega

theorem htons_be16 (data : Frame) (off : Nat) :
    htons (be16 data off) = byteAt data off + 256 * byteAt data (off + 1) :=
  ((le16_eq_htons_iff (byteAt_lt data off) (byteAt_lt data (off + 1))
    (be16_lt data off)).2 rfl).symm

theorem htons_inj {v w : Nat} (hv : v < 65536) (hw : w < 65536) :
    htons v = htons w ↔ v = w := by
  constructor
  · intro h
    have h1 : v / 256 < 256 := by omega
    have h2 : w / 256 < 256 := by omega
    unfold htons at h
    omega
  · intro h
    rw [h]

theorem load16_wire {data : Frame} {off : Nat} (h : off + 1 < data.length) :
    load16 data off = some (htons (be16 data off)) := by
  rw [load16_of_lt h, htons_be16]

theorem htons_is_tpid_iff {v : Nat} (hv : v < 65536) :
    (htons v = htons ETH_P_8021Q ∨ htons v = htons ETH_P_8021AD) ↔ isTPID v := by
  rw [htons_inj hv (by decide), htons_inj hv (by decide)]
  rfl

/-! ## The layer-2 walk of `udpfilter` -/

theorem vlan_block_skip (data : Frame) (nh_off : Nat) {v : Nat} (hv : v < 65536)
    (h : ¬ isTPID v) : vlan_block data nh_off (htons v) = .next nh_off (htons v) := by
  unfold vlan_block
  rw [if_neg (mt (htons_is_tpid_iff hv).1 h)]

theorem vlan_block_take {data : Frame} {nh_off v : Nat} (hv : v < 65536)
    (h : isTPID v) (hlen : nh_off + 4 ≤ data.length) :
    vlan_block data nh_off (htons v) =
      .next (nh_off + 4) (htons (be16 data (nh_off + 2))) := by
  unfold vlan_block
  rw [if_pos ((htons_is_tpid_iff hv).2 h)]
  simp only [sizeof_vlan_hdr]
  rw [if_neg (by omega), load16_wire (by omega)]

theorem vlan_block_cut {data : Frame} {nh_off v : Nat} (hv : v < 65536)
    (h : isTPID v) (hlen : data.length < nh_off + 4) :
    vlan_block data nh_off (htons v) = .ret := by
  unfold vlan_block
  rw [if_pos ((htons_is_tpid_iff hv).2 h)]
  simp only [sizeof_vlan_hdr]
  rw [if_pos (by omega)]

theorem udpfilter_short {data : Frame} (dropcnt : CounterTable) (h : data.length < 14) :
    udpfilter data dropcnt = some ⟨RETURNCODE, data, dropcnt, none⟩ := by
  simp [udpfilter, sizeof_ethhdr, h]

theorem udpfilter_l2 {data : Frame} (dropcnt : CounterTable)
    (h : l3Offset data ≤ data.length) :
    udpfilter data dropcnt =
      dispatch data dropcnt RETURNCODE (l3Offset data) (htons (etherType data)) := by
  have h14 : 14 ≤ data.length := by unfold l3Offset at h; omega
  unfold udpfilter
  simp only [sizeof_ethhdr]
  rw [if_neg (by omega), load16_wire (by omega : 12 + 1 < data.length)]
  simp only [Option.some_bind]
  unfold l3Offset etherType vlanTags at *
  by_cases h1 : isTPID (be16 data 12)
  · simp only [h1, if_true] at h ⊢
    by_cases h2 : isTPID (be16 data 16)
    · simp only [h2, if_true] at h ⊢
      rw [vlan_block_take (be16_lt _ _) h1 (by omega)]
      simp only []
      rw [vlan_block_take (be16_lt _ _) h2 (by omega)]
    · simp only [h2, if_false] at h ⊢
      rw [vlan_block_take (be16_lt _ _) h1 (by omega)]
      simp only []
      rw [vlan_block_skip _ _ (be16_lt _ _) h2]
  · simp only [h1, if_false] at h ⊢
    rw [vlan_block_skip _ _ (be16_lt _ _) h1]
    simp only []
    rw [vlan_block_skip _ _ (be16_lt _ _) h1]

theorem udpfilter_vlan_cut {data : Frame} (dropcnt : CounterTable)
    (h14 : 14 ≤ data.length) (h : data.length < l3Offset data) :
    udpfilter data dropcnt = some ⟨RETURNCODE, data, dropcnt, none⟩ := by
  unfold udpfilter
  simp only [sizeof_ethhdr]
  rw [if_neg (by omega), load16_wire (by omega : 12 + 1 < data.length)]
  simp only [Option.some_bind]
  unfold l3Offset vlanTags at *
  by_cases h1 : isTPID (be16 data 12)
  · simp only [h1, if_true] at h
    by_cases hl : data.length < 14 + 4
    · rw [vlan_block_cut (be16_lt _ _) h1 hl]
    · by_cases h2 : isTPID (be16 data 16)
      · simp only [h2, if_true] at h
        rw [vlan_block_take (be16_lt _ _) h1 (by omega)]
        simp only []
        rw [vlan_block_cut (be16_lt _ _) h2 (by omega)]
      · simp only [h2, if_false] at h
        omega
  · simp only [h1, if_false] at h
    omega

/-! ## The fragmentation test -/

theorem frag_test_iff {b6 b7 : Nat} (h6 : b6 < 256) (h7 : b7 < 256) :
    (b6 + 256 * b7) &&& 65343 = 0 ↔ b6 % 64 = 0 ∧ b7 = 0 := by
  have e63 : ∀ x : Nat, x &&& 63 = x % 64 := fun x => Nat.and_pow_two_sub_one_eq_mod x 6
  have e255 : ∀ x : Nat, x &&& 255 = x % 256 := fun x => Nat.and_pow_two_sub_one_eq_mod x 8
  have e65535 : ∀ x : Nat, x &&& 65535 = x % 65536 :=
    fun x => Nat.and_pow_two_sub_one_eq_mod x 16
  constructor
  · intro h
    have a1 : (b6 + 256 * b7) % 64 = 0 := by
      rw [← e63, show (63 : Nat) = 65343 &&& 63 by decide, ← Nat.and_assoc, h]; simp
    have a2 : (b6 + 256 * b7) &&& 65280 = 0 := by
      rw [show (65280 : Nat) = 65343 &&& 65280 by decide, ← Nat.and_assoc, h]; simp
    have a3 : (b6 + 256 * b7) % 65536 = (b6 + 256 * b7) % 256 := by
      rw [← e65535, show (65535 : Nat) = 65280 ||| 255 by decide, Nat.and_or_distrib_left,
        a2, e255]
      simp
    omega
  · rintro ⟨h, rfl⟩
    have : b6 = 0 ∨ b6 = 64 ∨ b6 = 128 ∨ b6 = 192 := by omega
    rcases this with rfl | rfl | rfl | rfl <;> decide

theorem frag_test_fragmented (data : Frame) (l3 : Nat) :
    (byteAt data (l3 + 6) + 256 * byteAt data (l3 + 6 + 1)) &&& IP_FRAGMENTED ≠ 0 ↔
      fragmented data l3 := by
  have h6 := byteAt_lt data (l3 + 6)
  have h7 := byteAt_lt data (l3 + 7)
  unfold IP_FRAGMENTED
  rw [Ne, frag_test_iff h6 h7]
  simp only [fragmented, moreFragments, fragmentOffset, decide_eq_true_eq]
  have hq : byteAt data (l3 + 6) / 32 % 2 = 0 ∨ byteAt data (l3 + 6) / 32 % 2 = 1 := by omega
  have hs : byteAt data (l3 + 6) % 64
      = 32 * (byteAt data (l3 + 6) / 32 % 2) + byteAt data (l3 + 6) % 32 := by omega
  rcases hq with hq | hq <;> rw [hq] at hs ⊢ <;> omega

/-! ## The parsers, case by case -/

theorem set_same {data : Frame} {off : Nat} {b : Byte} (h : byteAt data off = b.val) :
    data.set off b = data := by
  apply List.ext_getElem?
  intro n
  rw [List.getElem?_set]
  split
  · next hn =>
    subst hn
    split
    · next hlt =>
      rw [List.getElem?_eq_getElem hlt]
      congr 1
      apply Fin.ext
      rw [← h]
      simp [byteAt, List.getElem?_eq_getElem hlt]
    · next hge =>
      exact (List.getElem?_eq_none (by omega)).symm
  · rfl

theorem parse_udp_cut {data : Frame} {off : Nat} (pkt : pkt_meta)
    (h : data.length < off + 8) : parse_udp data off pkt = some (false, data, pkt) := by
  unfold parse_udp
  simp only [sizeof_udphdr]
  rw [if_pos (by omega)]

theorem parse_udp_miss {data : Frame} {off : Nat} (pkt : pkt_meta)
    (h : off + 8 ≤ data.length) (hp : be16 data (off + 2) ≠ 6081) :
    (parse_udp data off pkt).map (fun r => (r.1, r.2.1)) = some (true, data) := by
  unfold parse_udp
  simp only [sizeof_udphdr]
  rw [if_neg (by omega), load16_wire (by omega), load16_wire (by omega)]
  simp only [Option.some_bind]
  rw [if_neg (by rw [htons_inj (be16_lt _ _) (by decide)]; exact hp)]
  rfl

theorem parse_udp_hit {data : Frame} {off : Nat} (pkt : pkt_meta)
    (h : off + 8 ≤ data.length) (hp : be16 data (off + 2) = 6081) :
    (parse_udp data off pkt).map (fun r => (r.1, r.2.1)) =
      some (true, data.set (off + 3) 0xC2) := by
  have hb2 : byteAt data (off + 2) = 0x17 := by
    have ha := byteAt_lt data (off + 2)
    have hb := byteAt_lt data (off + 2 + 1)
    unfold be16 at hp
    omega
  unfold parse_udp
  simp only [sizeof_udphdr]
  rw [if_neg (by omega), load16_wire (by omega), load16_wire (by omega)]
  simp only [Option.some_bind]
  rw [if_pos (by rw [hp]; rfl)]
  unfold store16
  rw [if_pos (by omega)]
  simp only [Option.some_bind, Option.map_some']
  rw [@set_same data (off + 2) (toByte (htons 6082)) (by rw [hb2]; rfl)]
  rfl

theorem parse_ipv4_cut {data : Frame} {l3 : Nat} (h : data.length < l3 + 20) :
    parse_ipv4 data l3 = some (0, data) := by
  unfold parse_ipv4
  simp only [sizeof_iphdr]
  rw [if_pos (by omega)]

theorem parse_ipv4_frag {data : Frame} {l3 : Nat} (h : l3 + 20 ≤ data.length)
    (hf : fragmented data l3) : parse_ipv4 data l3 = some (XDP_DROP, data) := by
  unfold parse_ipv4
  simp only [sizeof_iphdr]
  rw [if_neg (by omega), load8_of_lt (by omega), load16_of_lt (by omega),
    load16_of_lt (by omega)]
  simp only [Option.some_bind]
  rw [if_pos ((frag_test_fragmented data l3).2 hf)]

theorem parse_ipv4_walk {data : Frame} {l3 : Nat} (h : l3 + 20 ≤ data.length)
    (hf : ¬ fragmented data l3) :
    ∃ pkt : pkt_meta, parse_ipv4 data l3 =
      if ipProtocol data l3 = IPPROTO_UDP then
        ((parse_udp data (l3 + 20) pkt).map fun r => (r.1, r.2.1)).map
          fun q => (ipProtocol data l3, q.2)
      else
        some (ipProtocol data l3, data) := by
  unfold parse_ipv4
  simp only [sizeof_iphdr]
  rw [if_neg (by omega), load8_of_lt (by omega), load16_of_lt (by omega),
    load16_of_lt (by omega)]
  simp only [Option.some_bind]
  obtain ⟨s, hs⟩ : ∃ s, load32 data (l3 + 12) = some s := ⟨_, load32_of_lt (by omega)⟩
  obtain ⟨d, hd⟩ : ∃ d, load32 data (l3 + 16) = some d := ⟨_, load32_of_lt (by omega)⟩
  rw [if_neg (mt (frag_test_fragmented data l3).1 hf), hs, hd]
  simp only [Option.some_bind, ipProtocol]
  refine ⟨{ src := s, dst := d }, ?_⟩
  split
  · cases parse_udp data (l3 + 20) { src := s, dst := d } <;> simp
  · rfl

theorem parse_ipv4_other {data : Frame} {l3 : Nat} (h : l3 + 20 ≤ data.length)
    (hf : ¬ fragmented data l3) (hp : ipProtocol data l3 ≠ 17) :
    parse_ipv4 data l3 = some (ipProtocol data l3, data) := by
  obtain ⟨pkt, e⟩ := parse_ipv4_walk h hf
  rw [e, if_neg (show ¬ ipProtocol data l3 = IPPROTO_UDP from hp)]

theorem parse_ipv4_udp_cut {data : Frame} {l3 : Nat} (h : l3 + 20 ≤ data.length)
    (hf : ¬ fragmented data l3) (hp : ipProtocol data l3 = 17)
    (hu : data.length < l3 + 28) : parse_ipv4 data l3 = some (17, data) := by
  obtain ⟨pkt, e⟩ := parse_ipv4_walk h hf
  rw [e, if_pos (show ipProtocol data l3 = IPPROTO_UDP from hp), parse_udp_cut pkt (by omega), hp]
  rfl

theorem parse_ipv4_udp_miss {data : Frame} {l3 : Nat} (hf : ¬ fragmented data l3)
    (hp : ipProtocol data l3 = 17) (hu : l3 + 28 ≤ data.length)
    (hd : be16 data (l3 + 22) ≠ 6081) : parse_ipv4 data l3 = some (17, data) := by
  obtain ⟨pkt, e⟩ := parse_ipv4_walk (by omega) hf
  rw [e, if_pos (show ipProtocol data l3 = IPPROTO_UDP from hp), parse_udp_miss pkt (by omega) hd, hp]
  rfl

theorem parse_ipv4_udp_hit {data : Frame} {l3 : Nat} (hf : ¬ fragmented data l3)
    (hp : ipProtocol data l3 = 17) (hu : l3 + 28 ≤ data.length)
    (hd : be16 data (l3 + 22) = 6081) :
    parse_ipv4 data l3 = some (17, data.set (l3 + 23) 0xC2) := by
  obtain ⟨pkt, e⟩ := parse_ipv4_walk (by omega) hf
  rw [e, if_pos (show ipProtocol data l3 = IPPROTO_UDP from hp), parse_udp_hit pkt (by omega) hd, hp]
  rfl

/-! ## The counting step -/

theorem lock_xadd_eq_bump (dropcnt : CounterTable) {i : Nat} (h : i < 256) :
    lock_xadd dropcnt ⟨i, h⟩ = bump dropcnt i := by
  funext j
  unfold lock_xadd bump Function.update
  by_cases hj : j = ⟨i, h⟩
  · subst hj
    simp
  · have : j.val ≠ i := fun e => hj (Fin.ext e)
    simp [hj, this]

theorem dispatch_ipv4 (data : Frame) (dropcnt : CounterTable) (rc l3 : Nat) :
    dispatch data dropcnt rc l3 (htons ETH_P_IP) =
      (parse_ipv4 data l3).bind fun r =>
        match lookup r.1 with
        | some value => some ⟨rc, r.2, lock_xadd dropcnt value, some r.1⟩
        | none => some ⟨rc, r.2, dropcnt, some r.1⟩ := by
  unfold dispatch
  rw [if_pos rfl]

theorem count_step (rc : Nat) (frame : Frame) (dropcnt : CounterTable) {i : Nat}
    (h : i < 256) :
    (match lookup i with
      | some value => some (Outcome.mk rc frame (lock_xadd dropcnt value) (some i))
      | none => some (Outcome.mk rc frame dropcnt (some i))) =
      some ⟨rc, frame, bump dropcnt i, some i⟩ := by
  unfold lookup
  rw [dif_pos h]
  simp only [lock_xadd_eq_bump]

theorem byteAt_set_ne (data : Frame) {i j : Nat} (b : Byte) (h : i ≠ j) :
    byteAt (data.set i b) j = byteAt data j := by
  simp [byteAt, List.getElem?_set_ne h]

theorem byteAt_set_self {data : Frame} {i : Nat} (b : Byte) (h : i < data.length) :
    byteAt (data.set i b) i = b.val := by
  simp [byteAt, List.getElem?_set_self h]

/-- The whole outcome of `udpfilter` on an IPv4 frame whose header is complete. -/
theorem udpfilter_ipv4 {data : Frame} (dropcnt : CounterTable)
    (he : etherType data = ETH_P_IP) (hl : l3Offset data ≤ data.length) {i : Nat}
    {frame : Frame} (hi : i < 256) (hparse : parse_ipv4 data (l3Offset data) = some (i, frame)) :
    udpfilter data dropcnt = some ⟨XDP_PASS, frame, bump dropcnt i, some i⟩ := by
  rw [udpfilter_l2 dropcnt hl, he, dispatch_ipv4, hparse]
  exact count_step _ _ _ hi

theorem udpfilter_fragmented {data : Frame} (dropcnt : CounterTable)
    (he : etherType data = ETH_P_IP) (hl : l3Offset data + 20 ≤ data.length)
    (hf : fragmented data (l3Offset data)) :
    udpfilter data dropcnt = some ⟨XDP_PASS, data, bump dropcnt XDP_DROP, some XDP_DROP⟩ :=
  udpfilter_ipv4 dropcnt he (by omega) (by decide) (parse_ipv4_frag hl hf)

theorem parse_ipv4_index {data : Frame} {l3 : Nat} (h : l3 + 20 ≤ data.length)
    (hf : ¬ fragmented data l3) :
    ∃ frame, parse_ipv4 data l3 = some (ipProtocol data l3, frame) ∧
      frame.length = data.length := by
  by_cases hp : ipProtocol data l3 = 17
  · by_cases hu : l3 + 28 ≤ data.length
    · by_cases hd : be16 data (l3 + 22) = 6081
      · exact ⟨_, by rw [parse_ipv4_udp_hit hf hp hu hd, hp], List.length_set _ _ _⟩
      · exact ⟨_, by rw [parse_ipv4_udp_miss hf hp hu hd, hp], rfl⟩
    · exact ⟨_, by rw [parse_ipv4_udp_cut h hf hp (by omega), hp], rfl⟩
  · exact ⟨_, parse_ipv4_other h hf hp, rfl⟩

theorem parse_ipv4_total (data : Frame) (l3 : Nat) :
    ∃ i frame, parse_ipv4 data l3 = some (i, frame) ∧ i < 256 ∧
      frame.length = data.length := by
  by_cases h : l3 + 20 ≤ data.length
  · by_cases hf : fragmented data l3
    · exact ⟨_, _, parse_ipv4_frag h hf, by decide, rfl⟩
    · obtain ⟨frame, e, hlen⟩ := parse_ipv4_index h hf
      exact ⟨_, _, e, byteAt_lt _ _, hlen⟩
  · exact ⟨_, _, parse_ipv4_cut (by omega), by decide, rfl⟩

theorem parse_ipv6_cut {data : Frame} {l3 : Nat} (h : data.length < l3 + 40) :
    parse_ipv6 data l3 = some 0 := by
  unfold parse_ipv6
  simp only [sizeof_ipv6hdr]
  rw [if_pos (by omega)]

theorem parse_ipv6_full {data : Frame} {l3 : Nat} (h : l3 + 40 ≤ data.length) :
    parse_ipv6 data l3 = some (byteAt data (l3 + 6)) := by
  unfold parse_ipv6
  simp only [sizeof_ipv6hdr]
  rw [if_neg (by omega), load8_of_lt (by omega)]

theorem parse_ipv6_total (data : Frame) (l3 : Nat) :
    ∃ i, parse_ipv6 data l3 = some i ∧ i < 256 := by
  by_cases h : l3 + 40 ≤ data.length
  · exact ⟨_, parse_ipv6_full h, byteAt_lt _ _⟩
  · exact ⟨0, parse_ipv6_cut (by omega), by decide⟩

theorem dispatch_ipv6 (data : Frame) (dropcnt : CounterTable) (rc l3 : Nat) {i : Nat}
    (hi : i < 256) (hparse : parse_ipv6 data l3 = some i) :
    dispatch data dropcnt rc l3 (htons ETH_P_IPV6) =
      some ⟨rc, data, bump dropcnt i, some i⟩ := by
  unfold dispatch
  rw [if_neg (by decide), if_pos rfl, hparse]
  exact count_step _ _ _ hi

theorem dispatch_other (data : Frame) (dropcnt : CounterTable) (rc l3 : Nat) {v : Nat}
    (hv : v < 65536) (h4 : v ≠ ETH_P_IP) (h6 : v ≠ ETH_P_IPV6) :
    dispatch data dropcnt rc l3 (htons v) = some ⟨rc, data, bump dropcnt 0, some 0⟩ := by
  unfold dispatch
  rw [if_neg (mt (htons_inj hv (by decide)).1 h4),
    if_neg (mt (htons_inj hv (by decide)).1 h6)]
  exact count_step _ _ _ (by decide : 0 < 256)

/-- Whatever the frame, the code of lines 119-127 counts one index below 256 and
keeps the length of the frame; the index and the frame do not depend on the
counter table. -/
theorem dispatch_total (data : Frame) (rc l3 : Nat) {v : Nat} (hv : v < 65536) :
    ∃ i frame, i < 256 ∧ frame.length = data.length ∧
      (i = 0 ∨ i = XDP_DROP ∨ i = ipProtocol data l3 ∨ i = byteAt data (l3 + 6)) ∧
      ∀ dropcnt, dispatch data dropcnt rc l3 (htons v) =
        some ⟨rc, frame, bump dropcnt i, some i⟩ := by
  by_cases h4 : v = ETH_P_IP
  · subst h4
    have key : ∃ i frame, parse_ipv4 data l3 = some (i, frame) ∧ i < 256 ∧
        frame.length = data.length ∧ (i = 0 ∨ i = XDP_DROP ∨ i = ipProtocol data l3) := by
      by_cases h : l3 + 20 ≤ data.length
      · by_cases hf : fragmented data l3
        · exact ⟨_, _, parse_ipv4_frag h hf, by decide, rfl, Or.inr (Or.inl rfl)⟩
        · obtain ⟨frame, e, hlen⟩ := parse_ipv4_index h hf
          exact ⟨_, _, e, byteAt_lt _ _, hlen, Or.inr (Or.inr rfl)⟩
      · exact ⟨_, _, parse_ipv4_cut (by omega), by decide, rfl, Or.inl rfl⟩
    obtain ⟨i, frame, e, hi, hlen, hk⟩ := key
    refine ⟨i, frame, hi, hlen, ?_, ?_⟩
    · rcases hk with hk | hk | hk
      · exact Or.inl hk
      · exact Or.inr (Or.inl hk)
      · exact Or.inr (Or.inr (Or.inl hk))
    · intro dropcnt
      rw [dispatch_ipv4, e]
      exact count_step _ _ _ hi
  · by_cases h6 : v = ETH_P_IPV6
    · subst h6
      by_cases h : l3 + 40 ≤ data.length
      · exact ⟨_, data, byteAt_lt _ _, rfl, Or.inr (Or.inr (Or.inr rfl)),
          fun dropcnt => dispatch_ipv6 _ _ _ _ (byteAt_lt _ _) (parse_ipv6_full h)⟩
      · exact ⟨0, data, by decide, rfl, Or.inl rfl,
          fun dropcnt => dispatch_ipv6 _ _ _ _ (by decide : 0 < 256)
            (parse_ipv6_cut (by omega))⟩
    · exact ⟨0, data, by decide, rfl, Or.inl rfl,
        fun dropcnt => dispatch_other _ _ _ _ hv h4 h6⟩

/-- With fewer than 20 bytes after the layer-2 headers the counted index is 0 and
the frame is untouched, whatever the ethertype. -/
theorem dispatch_cut (data : Frame) (dropcnt : CounterTable) (rc : Nat) {l3 v : Nat}
    (hv : v < 65536) (h : data.length < l3 + 20) :
    dispatch data dropcnt rc l3 (htons v) = some ⟨rc, data, bump dropcnt 0, some 0⟩ := by
  by_cases h4 : v = ETH_P_IP
  · subst h4
    rw [dispatch_ipv4, parse_ipv4_cut h]
    exact count_step _ _ _ (by decide : 0 < 256)
  · by_cases h6 : v = ETH_P_IPV6
    · subst h6
      exact dispatch_ipv6 _ _ _ _ (by decide : 0 < 256) (parse_ipv6_cut (by omega))
    · exact dispatch_other _ _ _ _ hv h4 h6

/-! ## The shape of every run -/

/-- Every run of `udpfilter` returns `XDP_PASS` and a frame of the same length,
and counts one index below 256 or returns before the counting step; the frame
and the index do not depend on the counter table. -/
theorem udpfilter_shape (data : Frame) :
    ∃ (frame : Frame) (index : Option Nat), frame.length = data.length ∧
      (∀ i, index = some i → l3Offset data ≤ data.length ∧ i < 256 ∧
        (i = 0 ∨ i = XDP_DROP ∨ i = ipProtocol data (l3Offset data) ∨
          i = byteAt data (l3Offset data + 6))) ∧
      (index = none → data.length < l3Offset data ∧ frame = data) ∧
      ∀ dropcnt, udpfilter data dropcnt =
        some ⟨XDP_PASS, frame, tableAfter dropcnt index, index⟩ := by
  by_cases h14 : data.length < 14
  · refine ⟨data, none, rfl, fun i hi => (by cases hi), fun _ => ⟨?_, rfl⟩,
      fun dropcnt => udpfilter_short dropcnt h14⟩
    unfold l3Offset
    omega
  · by_cases hl : l3Offset data ≤ data.length
    · obtain ⟨i, frame, hi, hlen, hk, hrun⟩ :=
        dispatch_total data RETURNCODE (l3Offset data) (be16_lt data (12 + 4 * vlanTags data))
      refine ⟨frame, some i, hlen, ?_, fun hn => (by cases hn), ?_⟩
      · intro j hj
        cases hj
        exact ⟨hl, hi, hk⟩
      · intro dropcnt
        rw [udpfilter_l2 dropcnt hl]
        exact hrun dropcnt
    · exact ⟨data, none, rfl, fun i hi => (by cases hi), fun _ => ⟨by omega, rfl⟩,
        fun dropcnt => udpfilter_vlan_cut dropcnt (by omega) (by omega)⟩

theorem classify_eq {data : Frame} {r : Outcome} {dropcnt : CounterTable}
    (h : udpfilter data dropcnt = some r) : classify data = r.index := by
  obtain ⟨frame, index, _, _, _, hrun⟩ := udpfilter_shape data
  rw [hrun dropcnt] at h
  cases h
  unfold classify
  rw [hrun]
  rfl

theorem bump_apply (dropcnt : CounterTable) (i : Nat) (j : Fin 256) :
    bump dropcnt i j = if j.val = i then (dropcnt j + 1) % 2 ^ 64 else dropcnt j := rfl

theorem tableAfter_lt {dropcnt : CounterTable} (hw : ∀ j, dropcnt j < 2 ^ 64)
    (index : Option Nat) (j : Fin 256) : tableAfter dropcnt index j < 2 ^ 64 := by
  cases index with
  | none => exact hw j
  | some i =>
    show bump dropcnt i j < 2 ^ 64
    rw [bump_apply]
    split
    · exact Nat.mod_lt _ (by decide)
    · exact hw j

theorem runFrames_cons (data : Frame) (rest : List Frame) (dropcnt : CounterTable) :
    runFrames (data :: rest) dropcnt = runFrames rest (tableAfter dropcnt (classify data)) := by
  obtain ⟨frame, index, _, _, _, hrun⟩ := udpfilter_shape data
  have hc : classify data = index := classify_eq (hrun dropcnt)
  show (udpfilter data dropcnt).bind (fun r => runFrames rest r.table) = _
  rw [hrun dropcnt, hc]
  rfl

theorem classifiedTo_cons (i : Nat) (data : Frame) (rest : List Frame) :
    classifiedTo i (data :: rest) =
      (if classify data = some i then 1 else 0) + classifiedTo i rest := by
  unfold classifiedTo
  rw [List.filter_cons]
  by_cases h : classify data = some i
  · simp [h, Nat.add_comm]
  · simp [h]

theorem runFrames_counts (frames : List Frame) :
    ∀ dropcnt : CounterTable, (∀ j, dropcnt j < 2 ^ 64) →
      ∃ final, runFrames frames dropcnt = some final ∧
        ∀ j : Fin 256, final j = (dropcnt j + classifiedTo j.val frames) % 2 ^ 64 := by
  induction frames with
  | nil =>
    intro dropcnt hw
    refine ⟨dropcnt, rfl, fun j => ?_⟩
    show dropcnt j = (dropcnt j + 0) % 2 ^ 64
    rw [Nat.add_zero, Nat.mod_eq_of_lt (hw j)]
  | cons data rest ih =>
    intro dropcnt hw
    obtain ⟨final, hfinal, hval⟩ :=
      ih (tableAfter dropcnt (classify data)) (tableAfter_lt hw _)
    refine ⟨final, by rw [runFrames_cons]; exact hfinal, fun j => ?_⟩
    rw [hval j, classifiedTo_cons]
    cases hc : classify data with
    | none =>
      simp only [tableAfter, if_neg (by simp : ¬ (none : Option Nat) = some j.val),
        Nat.zero_add]
    | some i =>
      simp only [tableAfter, bump_apply, Option.some.injEq]
      by_cases hij : j.val = i
      · rw [if_pos hij, if_pos hij.symm, Nat.mod_add_mod]
        congr 1
        omega
      · rw [if_neg hij, if_neg (fun e => hij e.symm), Nat.zero_add]

/-! ## Checked accesses -/

theorem load8_isSome (data : Frame) (off : Nat) :
    (load8 data off).isSome ↔ off < data.length := by
  constructor
  · intro h
    by_contra hn
    unfold load8 at h
    rw [List.getElem?_eq_none (by omega)] at h
    cases h
  · intro h
    rw [load8_of_lt h]
    rfl

theorem load16_isSome (data : Frame) (off : Nat) :
    (load16 data off).isSome ↔ off + 1 < data.length := by
  constructor
  · intro h
    by_contra hn
    have h1 : load8 data (off + 1) = none := by
      cases e : load8 data (off + 1) with
      | none => rfl
      | some b =>
        have := (load8_isSome data (off + 1)).1 (by rw [e]; rfl)
        omega
    unfold load16 at h
    rw [h1] at h
    cases e0 : load8 data off with
    | none => rw [e0] at h; cases h
    | some b => rw [e0] at h; cases h
  · intro h
    rw [load16_of_lt h]
    rfl

theorem load32_isSome (data : Frame) (off : Nat) :
    (load32 data off).isSome ↔ off + 3 < data.length := by
  constructor
  · intro h
    by_contra hn
    have h1 : load16 data (off + 2) = none := by
      cases e : load16 data (off + 2) with
      | none => rfl
      | some b =>
        have := (load16_isSome data (off + 2)).1 (by rw [e]; rfl)
        omega
    unfold load32 at h
    rw [h1] at h
    cases e0 : load16 data off with
    | none => rw [e0] at h; cases h
    | some b => rw [e0] at h; cases h
  · intro h
    rw [load32_of_lt h]
    rfl

theorem store16_isSome (data : Frame) (off v : Nat) :
    (store16 data off v).isSome ↔ off + 1 < data.length := by
  unfold store16
  by_cases h : off + 1 < data.length
  · rw [if_pos h]
    exact ⟨fun _ => h, fun _ => rfl⟩
  · rw [if_neg h]
    exact ⟨fun e => (by cases e), fun e => absurd e h⟩

theorem parse_udp_isSome (data : Frame) (off : Nat) (pkt : pkt_meta) :
    (parse_udp data off pkt).isSome := by
  by_cases h : off + 8 ≤ data.length
  · have key : ((parse_udp data off pkt).map fun r => (r.1, r.2.1)).isSome := by
      by_cases hp : be16 data (off + 2) = 6081
      · rw [parse_udp_hit pkt h hp]; rfl
      · rw [parse_udp_miss pkt h hp]; rfl
    cases e : parse_udp data off pkt with
    | none => rw [e] at key; cases key
    | some r => rfl
  · rw [parse_udp_cut pkt (by omega)]
    rfl

theorem vlan_block_no_fault (data : Frame) (nh_off h_proto : Nat) :
    vlan_block data nh_off h_proto ≠ .fault := by
  unfold vlan_block
  simp only [sizeof_vlan_hdr]
  split
  · split
    · intro e; cases e
    · rw [load16_of_lt (by omega)]
      intro e; cases e
  · intro e; cases e

/-! ## Parsing behind a prefix -/

theorem load8_append (pre tl : Frame) (d : Nat) :
    load8 (pre ++ tl) (pre.length + d) = load8 tl d := by
  unfold load8
  rw [List.getElem?_append_right (Nat.le_add_right _ _), Nat.add_sub_cancel_left]

theorem load16_append (pre tl : Frame) (d : Nat) :
    load16 (pre ++ tl) (pre.length + d) = load16 tl d := by
  unfold load16
  rw [load8_append, Nat.add_assoc, load8_append]

theorem load32_append (pre tl : Frame) (d : Nat) :
    load32 (pre ++ tl) (pre.length + d) = load32 tl d := by
  unfold load32
  rw [load16_append, Nat.add_assoc, load16_append]

theorem store16_append (pre tl : Frame) (d v : Nat) :
    store16 (pre ++ tl) (pre.length + d) v = (store16 tl d v).map (pre ++ ·) := by
  unfold store16
  rw [List.length_append]
  by_cases h : d + 1 < tl.length
  · rw [if_pos (by omega), if_pos h, List.set_append_right _ _ (Nat.le_add_right _ _),
      Nat.add_sub_cancel_left, Nat.add_assoc,
      List.set_append_right _ _ (Nat.le_add_right _ _), Nat.add_sub_cancel_left]
    rfl
  · rw [if_neg (by omega), if_neg h]
    rfl

theorem parse_udp_append (pre tl : Frame) (d : Nat) (pkt : pkt_meta) :
    parse_udp (pre ++ tl) (pre.length + d) pkt =
      (parse_udp tl d pkt).map fun r => (r.1, pre ++ r.2.1, r.2.2) := by
  unfold parse_udp
  simp only [sizeof_udphdr, List.length_append, Nat.add_assoc, load16_append, store16_append]
  by_cases h : d + 8 > tl.length
  · rw [if_pos (by omega), if_pos h]
    rfl
  · rw [if_neg (by omega), if_neg h]
    cases load16 tl d with
    | none => rfl
    | some source =>
      cases load16 tl (d + 2) with
      | none => rfl
      | some dest =>
        simp only [Option.some_bind]
        split
        · cases store16 tl (d + 2) (htons 6082) <;> rfl
        · rfl

theorem parse_ipv4_append (pre tl : Frame) (d : Nat) :
    parse_ipv4 (pre ++ tl) (pre.length + d) =
      (parse_ipv4 tl d).map fun r => (r.1, pre ++ r.2) := by
  unfold parse_ipv4
  simp only [sizeof_iphdr, List.length_append, Nat.add_assoc, load8_append, load16_append,
    load32_append, parse_udp_append]
  by_cases h : d + 20 > tl.length
  · rw [if_pos (by omega), if_pos h]
    rfl
  · rw [if_neg (by omega), if_neg h]
    cases load8 tl (d + 9) with
    | none => rfl
    | some protocol =>
      cases load16 tl (d + 2) with
      | none => rfl
      | some tot_len =>
        cases load16 tl (d + 6) with
        | none => rfl
        | some frag_off =>
          simp only [Option.some_bind]
          split
          · rfl
          · cases load32 tl (d + 12) with
            | none => rfl
            | some saddr =>
              cases load32 tl (d + 16) with
              | none => rfl
              | some daddr =>
                simp only [Option.some_bind]
                split
                · cases parse_udp tl (d + 20) _ with
                  | none => rfl
                  | some r => cases hr : r.1 <;> simp [hr]
                · rfl

theorem parse_ipv6_append (pre tl : Frame) (d : Nat) :
    parse_ipv6 (pre ++ tl) (pre.length + d) = parse_ipv6 tl d := by
  unfold parse_ipv6
  simp only [sizeof_ipv6hdr, List.length_append, Nat.add_assoc, load8_append]
  by_cases h : d + 40 > tl.length
  · rw [if_pos (by omega), if_pos h]
  · rw [if_neg (by omega), if_neg h]

theorem dispatch_append (pre tl : Frame) (dropcnt : CounterTable) (rc d h_proto : Nat) :
    dispatch (pre ++ tl) dropcnt rc (pre.length + d) h_proto =
      (dispatch tl dropcnt rc d h_proto).map (Outcome.behind pre) := by
  unfold dispatch
  simp only [parse_ipv4_append, parse_ipv6_append]
  split
  · cases parse_ipv4 tl d with
    | none => rfl
    | some r =>
      simp only [Option.map_some', Option.some_bind]
      cases lookup r.1 <;> rfl
  · split
    · cases parse_ipv6 tl d with
      | none => rfl
      | some r =>
        simp only [Option.map_some', Option.some_bind]
        cases lookup r <;> rfl
    · simp only [Option.some_bind]
      cases lookup 0 <;> rfl

/-! ## Tagged frames -/

theorem byteAt_append (pre tl : Frame) (d : Nat) :
    byteAt (pre ++ tl) (pre.length + d) = byteAt tl d := by
  unfold byteAt
  simp only [List.getD_eq_getElem?_getD]
  rw [List.getElem?_append_right (Nat.le_add_right _ _), Nat.add_sub_cancel_left]

theorem be16_append (pre tl : Frame) (d : Nat) :
    be16 (pre ++ tl) (pre.length + d) = be16 tl d := by
  unfold be16
  rw [byteAt_append, Nat.add_assoc, byteAt_append]

theorem frame_split {data : Frame} (h : 14 ≤ data.length) :
    ∃ (mac : Frame) (e0 e1 : Byte) (tl : Frame),
      mac.length = 12 ∧ data = mac ++ e0 :: e1 :: tl := by
  have hm : (data.take 12).length = 12 := by rw [List.length_take]; omega
  have hd : (data.drop 12).length = data.length - 12 := List.length_drop _ _
  have hs : data = data.take 12 ++ data.drop 12 := (List.take_append_drop 12 data).symm
  match hrest : data.drop 12, hd with
  | [], hd => simp at hd; omega
  | [_], hd => simp at hd; omega
  | e0 :: e1 :: tl, _ => exact ⟨_, e0, e1, tl, hm, by rw [← hrest]; exact hs⟩

theorem insertTags_split (tags : List VlanTag) {mac : Frame} (hm : mac.length = 12)
    (e0 e1 : Byte) (tl : Frame) :
    insertTags tags (mac ++ e0 :: e1 :: tl) = mac ++ (tagBytes tags ++ e0 :: e1 :: tl) := by
  unfold insertTags
  rw [List.take_left' hm, List.drop_left' hm]

theorem tpid_is_tpid (t : VlanTag) :
    isTPID (256 * (toByte (t.tpid / 256)).val + (toByte t.tpid).val) := by
  cases t with
  | mk ad c0 c1 =>
    cases ad <;> simp [VlanTag.tpid, toByte, isTPID, ETH_P_8021Q, ETH_P_8021AD] <;> decide

/-! ## The effect of a run on the frame -/

theorem be16_eq_6081_iff (data : Frame) (off : Nat) :
    be16 data off = 6081 ↔ byteAt data off = 0x17 ∧ byteAt data (off + 1) = 0xC1 := by
  have ha := byteAt_lt data off
  have hb := byteAt_lt data (off + 1)
  unfold be16
  constructor
  · intro h; omega
  · rintro ⟨h1, h2⟩; omega

theorem rewriteFires_iff (data : Frame) :
    rewriteFires data ↔
      etherType data = ETH_P_IP ∧ l3Offset data + 28 ≤ data.length ∧
        ipProtocol data (l3Offset data) = 17 ∧ ¬ fragmented data (l3Offset data) ∧
        be16 data (l3Offset data + 22) = 6081 := by
  unfold rewriteFires
  rw [be16_eq_6081_iff]

/-- The index counted for a frame whose final ethertype is not IPv4; the frame is
untouched. -/
theorem dispatch_not_ipv4 (data : Frame) (rc l3 : Nat) {v : Nat} (hv : v < 65536)
    (h4 : v ≠ ETH_P_IP) :
    ∃ i, i < 256 ∧ ∀ dropcnt, dispatch data dropcnt rc l3 (htons v) =
      some ⟨rc, data, bump dropcnt i, some i⟩ := by
  by_cases h6 : v = ETH_P_IPV6
  · subst h6
    obtain ⟨i, e, hi⟩ := parse_ipv6_total data l3
    exact ⟨i, hi, fun dropcnt => dispatch_ipv6 _ _ _ _ hi e⟩
  · exact ⟨0, by decide, fun dropcnt => dispatch_other _ _ _ _ hv h4 h6⟩

/-- When the rewrite does not fire on an IPv4 frame, `parse_ipv4` returns the
frame as it was. -/
theorem parse_ipv4_no_rewrite {data : Frame} {l3 : Nat}
    (h : ¬ (l3 + 28 ≤ data.length ∧ ipProtocol data l3 = 17 ∧ ¬ fragmented data l3 ∧
      be16 data (l3 + 22) = 6081)) :
    ∃ i, i < 256 ∧ parse_ipv4 data l3 = some (i, data) := by
  by_cases hl : l3 + 20 ≤ data.length
  · by_cases hf : fragmented data l3
    · exact ⟨_, by decide, parse_ipv4_frag hl hf⟩
    · by_cases hp : ipProtocol data l3 = 17
      · by_cases hu : l3 + 28 ≤ data.length
        · have hd : be16 data (l3 + 22) ≠ 6081 := fun e => h ⟨hu, hp, hf, e⟩
          exact ⟨17, by decide, parse_ipv4_udp_miss hf hp hu hd⟩
        · exact ⟨17, by decide, parse_ipv4_udp_cut hl hf hp (by omega)⟩
      · exact ⟨_, byteAt_lt _ _, parse_ipv4_other hl hf hp⟩
  · exact ⟨0, by decide, parse_ipv4_cut (by omega)⟩

/-- The complete effect of `udpfilter` on the frame: byte `l3Offset + 23` becomes
0xC2 when the rewrite fires and nothing changes otherwise. -/
theorem udpfilter_effect (data : Frame) :
    ∃ index : Option Nat, (rewriteFires data → index = some 17) ∧
      ∀ dropcnt, udpfilter data dropcnt =
        some ⟨XDP_PASS,
          if rewriteFires data then data.set (l3Offset data + 23) 0xC2 else data,
          tableAfter dropcnt index, index⟩ := by
  by_cases hfire : rewriteFires data
  · obtain ⟨he, hlen, hp, hf, hd⟩ := (rewriteFires_iff data).1 hfire
    refine ⟨some 17, fun _ => rfl, fun dropcnt => ?_⟩
    rw [if_pos hfire]
    exact udpfilter_ipv4 dropcnt he (by omega) (by decide : 17 < 256)
      (parse_ipv4_udp_hit hf hp hlen hd)
  · by_cases hl : l3Offset data ≤ data.length
    · by_cases he : etherType data = ETH_P_IP
      · have hno : ¬ (l3Offset data + 28 ≤ data.length ∧ ipProtocol data (l3Offset data) = 17 ∧
            ¬ fragmented data (l3Offset data) ∧ be16 data (l3Offset data + 22) = 6081) :=
          fun ⟨a, b, c, d⟩ => hfire ((rewriteFires_iff data).2 ⟨he, a, b, c, d⟩)
        obtain ⟨i, hi, e⟩ := parse_ipv4_no_rewrite hno
        refine ⟨some i, fun h => absurd h hfire, fun dropcnt => ?_⟩
        rw [if_neg hfire]
        exact udpfilter_ipv4 dropcnt he hl hi e
      · obtain ⟨i, hi, hrun⟩ := dispatch_not_ipv4 data RETURNCODE (l3Offset data)
          (be16_lt data (12 + 4 * vlanTags data)) he
        refine ⟨some i, fun h => absurd h hfire, fun dropcnt => ?_⟩
        rw [if_neg hfire, udpfilter_l2 dropcnt hl]
        exact hrun dropcnt
    · refine ⟨none, fun h => absurd h hfire, fun dropcnt => ?_⟩
      rw [if_neg hfire]
      by_cases h14 : data.length < 14
      · exact udpfilter_short dropcnt h14
      · exact udpfilter_vlan_cut dropcnt (by omega) (by omega)

/-! ## Changing one byte of the frame -/

theorem be16_set_ne (data : Frame) {k off : Nat} (b : Byte) (h0 : k ≠ off)
    (h1 : k ≠ off + 1) : be16 (data.set k b) off = be16 data off := by
  unfold be16
  rw [byteAt_set_ne data b h0, byteAt_set_ne data b h1]

theorem vlanTags_le (data : Frame) : vlanTags data ≤ 2 := by
  unfold vlanTags
  split
  · split <;> omega
  · omega

theorem vlanTags_set (data : Frame) {k : Nat} (b : Byte) (h12 : k ≠ 12) (h13 : k ≠ 13)
    (h16 : k ≠ 16) (h17 : k ≠ 17) : vlanTags (data.set k b) = vlanTags data := by
  unfold vlanTags
  rw [be16_set_ne data b h12 h13, be16_set_ne data b h16 h17]

theorem fragmented_set (data : Frame) {k l3 : Nat} (b : Byte) (h6 : k ≠ l3 + 6)
    (h7 : k ≠ l3 + 7) : fragmented (data.set k b) l3 ↔ fragmented data l3 := by
  unfold fragmented moreFragments fragmentOffset
  rw [byteAt_set_ne data b h6, byteAt_set_ne data b h7]

/-- A byte written at the layer-3 offset itself, or 23 bytes after it, leaves
every field that `udpfilter` looks at before the rewrite where it was. -/
theorem fields_set (data : Frame) {k : Nat} (b : Byte)
    (hk : k = l3Offset data ∨ k = l3Offset data + 23) :
    l3Offset (data.set k b) = l3Offset data ∧
      etherType (data.set k b) = etherType data ∧
      ipProtocol (data.set k b) (l3Offset data) = ipProtocol data (l3Offset data) ∧
      (fragmented (data.set k b) (l3Offset data) ↔ fragmented data (l3Offset data)) ∧
      byteAt (data.set k b) (l3Offset data + 22) = byteAt data (l3Offset data + 22) := by
  have hv := vlanTags_le data
  have hcase : vlanTags data = 0 ∨ vlanTags data = 1 ∨ vlanTags data = 2 := by omega
  have hl : l3Offset data = 14 + 4 * vlanTags data := rfl
  have hvs : vlanTags (data.set k b) = vlanTags data := by
    apply vlanTags_set <;> omega
  refine ⟨?_, ?_, ?_, ?_, ?_⟩
  · unfold l3Offset
    rw [hvs]
  · unfold etherType
    rw [hvs]
    apply be16_set_ne <;> omega
  · unfold ipProtocol
    apply byteAt_set_ne
    omega
  · apply fragmented_set <;> omega
  · apply byteAt_set_ne
    omega

theorem rewriteFires_set_l3 (data : Frame) (b : Byte) :
    rewriteFires (data.set (l3Offset data) b) ↔ rewriteFires data := by
  obtain ⟨h1, h2, h3, h4, h5⟩ := fields_set data b (Or.inl rfl)
  unfold rewriteFires
  rw [h1, h2, h3, h4, h5, List.length_set, byteAt_set_ne data b (by omega)]

/-! ## The life cycle -/

theorem rangeLoop_exit (w : World) (device : String) (sigs : List Signal) (status : Nat)
    (h : exitStatus (rangeLoop w device sigs) = some status) :
    status = 1 ∧ detachCalls (rangeLoop w device sigs) = 1 ∧
      ∀ err, w.removeErr = some err →
        Event.stderr ("Failed to remove XDP from " ++ device ++ ": " ++ err ++ "\n") ∈
          rangeLoop w device sigs := by
  induction sigs with
  | nil => cases h
  | cons sig rest ih =>
    unfold rangeLoop at h ⊢
    by_cases hn : notified sig = true
    · rw [if_pos hn] at h ⊢
      by_cases hs : sig ≠ Signal.SIGHUP
      · rw [if_pos hs] at h ⊢
        cases hr : w.removeErr with
        | none =>
          rw [hr] at h
          refine ⟨?_, rfl, fun err he => (by cases he)⟩
          cases h
          rfl
        | some e =>
          rw [hr] at h
          refine ⟨?_, rfl, fun err he => ?_⟩
          · cases h
            rfl
          · cases he
            simp
      · rw [if_neg hs] at h ⊢
        exact ih h
    · rw [if_neg hn] at h
      cases h

theorem signalGoroutine_exit (w : World) (device : String) (sigs : List Signal)
    (status : Nat) (h : exitStatus (signalGoroutine w device sigs) = some status) :
    status = 1 ∧ detachCalls (signalGoroutine w device sigs) = 1 ∧
      ∀ err, w.removeErr = some err →
        Event.stderr ("Failed to remove XDP from " ++ device ++ ": " ++ err ++ "\n") ∈
          signalGoroutine w device sigs := by
  cases sigs with
  | nil => cases h
  | cons sig rest =>
    have e : signalGoroutine w device (sig :: rest) =
        if notified sig = true then rangeLoop w device rest else [Event.killed sig] := rfl
    rw [e] at h ⊢
    by_cases hn : notified sig = true
    · rw [if_pos hn] at h ⊢
      exact rangeLoop_exit w device rest status h
    · rw [if_neg hn] at h
      cases h

/-- A run that ends through `os.Exit` has status 1; it holds one `RemoveXDP` if the
filter was attached and none if `Load` or `AttachXDP` failed, and a failure of
that `RemoveXDP` is on standard error. -/
theorem main_exit (w : World) (status : Nat) (hterm : exitStatus (main w) = some status) :
    status = 1 ∧
    (attached w → detachCalls (main w) = 1) ∧
    (w.loadErr ≠ none ∨ w.attachErr ≠ none → detachCalls (main w) = 0) ∧
    (∀ device err, attached w → w.params = [device] → w.removeErr = some err →
      Event.stderr ("Failed to remove XDP from " ++ device ++ ": " ++ err ++ "\n") ∈
        main w) := by
  unfold main at hterm ⊢
  unfold attached
  match hp : w.params with
  | [] =>
    rw [hp] at hterm
    simp only [usage, exitStatus] at hterm
    refine ⟨by cases hterm; rfl, fun h => ?_, fun _ => rfl, fun _ _ h => ?_⟩
    · obtain ⟨⟨d, hd⟩, _⟩ := h
      cases hd
    · obtain ⟨⟨d, hd⟩, _⟩ := h
      cases hd
  | _ :: _ :: _ =>
    rw [hp] at hterm
    simp only [usage, exitStatus] at hterm
    refine ⟨by cases hterm; rfl, fun h => ?_, fun _ => rfl, fun _ _ h => ?_⟩
    · obtain ⟨⟨d, hd⟩, _⟩ := h
      cases hd
    · obtain ⟨⟨d, hd⟩, _⟩ := h
      cases hd
  | [device] =>
    rw [hp] at hterm
    simp only at hterm ⊢
    cases hl : w.loadErr with
    | some e =>
      rw [hl] at hterm
      simp only [exitStatus] at hterm
      refine ⟨by cases hterm; rfl, fun h => ?_, fun _ => rfl, fun _ _ h => ?_⟩
      · exact absurd h.2.1 (by simp)
      · exact absurd h.2.1 (by simp)
    | none =>
      rw [hl] at hterm
      cases ha : w.attachErr with
      | some e =>
        rw [ha] at hterm
        simp only [exitStatus] at hterm
        refine ⟨by cases hterm; rfl, fun h => ?_, fun _ => rfl, fun _ _ h => ?_⟩
        · exact absurd h.2.2 (by simp)
        · exact absurd h.2.2 (by simp)
      | none =>
        rw [ha] at hterm
        have hterm2 : exitStatus (signalGoroutine w device w.signals) = some status := hterm
        obtain ⟨h1, h2, h3⟩ := signalGoroutine_exit w device w.signals status hterm2
        refine ⟨h1, fun _ => ?_, fun h => ?_, fun d err _ hd he => ?_⟩
        · show detachCalls (signalGoroutine w device w.signals) = 1
          exact h2
        · rcases h with h | h
          · exact absurd rfl h
          · exact absurd rfl h
        · cases hd
          simp only [List.mem_append, List.mem_cons]
          exact Or.inr (h3 err he)

theorem exit_of_ended {run : List Event} (hend : ended run = true)
    (hk : killedBy run = none) : ∃ status, exitStatus run = some status := by
  unfold ended at hend
  rw [hk] at hend
  cases he : exitStatus run with
  | none => rw [he] at hend; cases hend
  | some status => exact ⟨status, rfl⟩

/-! ## The reporting loop -/

theorem reportEntry_eq (e : Entry) :
    reportEntry e = if 0 < hostUint64 e.leaf then [reportLine e] else [] := rfl

/-! ## Claims -/

/-- C1 as stated fails.  `optionFrame` is a well-formed, unfragmented
Ethernet/IPv4/UDP frame whose IPv4 header is 24 bytes long (IHL 6) and whose UDP
destination port is 6081; `udpfilter` returns the frame unchanged, so the
destination port is still 6081. -/
theorem C1_counterexample :
    etherType optionFrame = ETH_P_IP ∧
    20 ≤ ipHeaderLen optionFrame (l3Offset optionFrame) ∧
    l3Offset optionFrame + ipHeaderLen optionFrame (l3Offset optionFrame) + 8
      ≤ optionFrame.length ∧
    ¬ fragmented optionFrame (l3Offset optionFrame) ∧
    ipProtocol optionFrame (l3Offset optionFrame) = 17 ∧
    be16 optionFrame
      (l3Offset optionFrame + ipHeaderLen optionFrame (l3Offset optionFrame) + 2) = 6081 ∧
    (udpfilter optionFrame zeroTable).map (fun r => r.frame) = some optionFrame ∧
    (udpfilter optionFrame zeroTable).map
      (fun r => be16 r.frame
        (l3Offset optionFrame + ipHeaderLen optionFrame (l3Offset optionFrame) + 2))
      = some 6081 := by
  have hf : ¬ fragmented optionFrame (l3Offset optionFrame) := by decide
  have hrun := @udpfilter_ipv4 optionFrame zeroTable (by decide) (by decide) 17 optionFrame
    (by decide : 17 < 256)
    (parse_ipv4_udp_miss hf (by decide) (by decide) (by decide))
  rw [hrun]
  refine ⟨by decide, by decide, by decide, hf, by decide, by decide, rfl, by decide⟩

/-- C1 (amended): for every unfragmented Ethernet/IPv4/UDP frame, behind at most
two VLAN tags, whose IPv4 header is exactly 20 bytes long (IHL 5), that holds a
complete UDP header and whose UDP destination port is 6081, `udpfilter` returns
`XDP_PASS` and leaves the frame with UDP destination port 6082, the same length
and every byte outside the destination-port field unchanged. -/
theorem C1_udp_port_rewrite (data : Frame) (dropcnt : CounterTable)
    (he : etherType data = ETH_P_IP)
    (hihl : ipHeaderLen data (l3Offset data) = 20)
    (hlen : l3Offset data + ipHeaderLen data (l3Offset data) + 8 ≤ data.length)
    (hf : ¬ fragmented data (l3Offset data))
    (hp : ipProtocol data (l3Offset data) = 17)
    (hd : be16 data (l3Offset data + ipHeaderLen data (l3Offset data) + 2) = 6081) :
    ∃ r, udpfilter data dropcnt = some r ∧ r.rc = XDP_PASS ∧
      be16 r.frame (l3Offset data + ipHeaderLen data (l3Offset data) + 2) = 6082 ∧
      r.frame.length = data.length ∧
      ∀ i, i ≠ l3Offset data + ipHeaderLen data (l3Offset data) + 2 →
        i ≠ l3Offset data + ipHeaderLen data (l3Offset data) + 3 →
        r.frame[i]? = data[i]? := by
  rw [hihl] at hlen hd ⊢
  have hrun := udpfilter_ipv4 dropcnt he (by omega) (by decide : 17 < 256)
    (parse_ipv4_udp_hit hf hp (by omega) hd)
  refine ⟨_, hrun, rfl, ?_, ?_, ?_⟩
  · have hb := byteAt_lt data (l3Offset data + 20 + 2 + 1)
    have ha := byteAt_lt data (l3Offset data + 20 + 2)
    show be16 (data.set (l3Offset data + 23) 0xC2) (l3Offset data + 20 + 2) = 6082
    unfold be16 at hd ⊢
    rw [byteAt_set_ne data _ (by omega),
      show l3Offset data + 20 + 2 + 1 = l3Offset data + 23 by omega,
      byteAt_set_self _ (by omega)]
    have : ((0xC2 : Byte) : Nat) = 194 := rfl
    omega
  · exact List.length_set _ _ _
  · intro i _ h3
    exact List.getElem?_set_ne (by omega)

/-- C1 (amended) at the frame of scenario A. -/
theorem C1_udp_port_rewrite_witness :
    ∃ r, udpfilter udpFrame zeroTable = some r ∧ r.rc = XDP_PASS ∧
      be16 r.frame (l3Offset udpFrame + ipHeaderLen udpFrame (l3Offset udpFrame) + 2) = 6082 ∧
      r.frame.length = udpFrame.length ∧
      ∀ i, i ≠ l3Offset udpFrame + ipHeaderLen udpFrame (l3Offset udpFrame) + 2 →
        i ≠ l3Offset udpFrame + ipHeaderLen udpFrame (l3Offset udpFrame) + 3 →
        r.frame[i]? = udpFrame[i]? :=
  C1_udp_port_rewrite udpFrame zeroTable (by decide) (by decide) (by decide) (by decide)
    (by decide) (by decide)

/-- C2: for every frame whose ethertype after at most two VLAN tags is IPv4, that
holds a complete 20-byte IPv4 header and whose fragmentation marker is clear,
`udpfilter` hands the protocol byte `p` of the header to the counter lookup and
increments exactly `CounterTable[p]` by 1; nothing is assumed about the bytes
after the IPv4 header, so for `p = 17` this covers a complete and a truncated UDP
header alike. -/
theorem C2_unfragmented_ipv4_counts_protocol (data : Frame) (dropcnt : CounterTable)
    (he : etherType data = ETH_P_IP) (hl : l3Offset data + 20 ≤ data.length)
    (hf : ¬ fragmented data (l3Offset data)) :
    ∃ r, udpfilter data dropcnt = some r ∧
      r.index = some (ipProtocol data (l3Offset data)) ∧
      r.table = bump dropcnt (ipProtocol data (l3Offset data)) := by
  obtain ⟨frame, e, _⟩ := parse_ipv4_index hl hf
  exact ⟨_, udpfilter_ipv4 dropcnt he (by omega) (byteAt_lt _ _) e, rfl, rfl⟩

/-- C2 at an IPv4 frame of protocol 17 whose UDP header is truncated. -/
theorem C2_unfragmented_ipv4_counts_protocol_witness :
    ipProtocol cutUdpFrame (l3Offset cutUdpFrame) = 17 ∧
    cutUdpFrame.length < l3Offset cutUdpFrame + 28 ∧
    ∃ r, udpfilter cutUdpFrame zeroTable = some r ∧
      r.index = some (ipProtocol cutUdpFrame (l3Offset cutUdpFrame)) ∧
      r.table = bump zeroTable (ipProtocol cutUdpFrame (l3Offset cutUdpFrame)) :=
  ⟨by decide, by decide,
    C2_unfragmented_ipv4_counts_protocol cutUdpFrame zeroTable (by decide) (by decide)
      (by decide)⟩

/-- C3 does not hold on the code.  `fragFrame` is an IPv4 frame with a complete
header whose fragmentation marker is set; `udpfilter` returns `XDP_PASS`, which
is not `XDP_DROP`: the `XDP_DROP` that `parse_ipv4` returns is stored in `index`
and `udpfilter` returns `rc`. -/
theorem C3_fragment_is_passed :
    etherType fragFrame = ETH_P_IP ∧
    l3Offset fragFrame + 20 ≤ fragFrame.length ∧
    fragmented fragFrame (l3Offset fragFrame) ∧
    (udpfilter fragFrame zeroTable).map (fun r => r.rc) = some XDP_PASS ∧
    XDP_PASS ≠ XDP_DROP := by
  have hf : fragmented fragFrame (l3Offset fragFrame) := by decide
  refine ⟨by decide, by decide, hf, ?_, by decide⟩
  rw [udpfilter_fragmented zeroTable (by decide) (by decide) hf]
  rfl

/-- C4 does not hold on the code.  On `fragFrame`, a fragmented IPv4 frame of
protocol 17, the index handed to the counter lookup is `XDP_DROP = 1`:
`CounterTable[1]` goes from 0 to 1 and `CounterTable[17]` stays 0. -/
theorem C4_fragment_counted_at_index_one :
    etherType fragFrame = ETH_P_IP ∧
    l3Offset fragFrame + 20 ≤ fragFrame.length ∧
    fragmented fragFrame (l3Offset fragFrame) ∧
    ipProtocol fragFrame (l3Offset fragFrame) = 17 ∧
    (udpfilter fragFrame zeroTable).map (fun r => r.index) = some (some 1) ∧
    (udpfilter fragFrame zeroTable).map (fun r => (r.table 1, r.table 17)) = some (1, 0) := by
  have hf : fragmented fragFrame (l3Offset fragFrame) := by decide
  refine ⟨by decide, by decide, hf, by decide, ?_, ?_⟩
  · rw [udpfilter_fragmented zeroTable (by decide) (by decide) hf]
    rfl
  · rw [udpfilter_fragmented zeroTable (by decide) (by decide) hf]
    rfl


/-- C5: for every untagged frame `data` with a complete Ethernet header and every
stack `tags` of one or two VLAN tags (either TPID, any tag control bytes),
`udpfilter` treats the tagged frame as it treats `data`: the result (faulting or
not), the returned action, the counter table and the counted index are the same
and the output frame is the output frame of `data` with the same tags inserted. -/
theorem C5_vlan_tags_transparent (data : Frame) (tags : List VlanTag)
    (dropcnt : CounterTable) (h14 : 14 ≤ data.length) (hn : ¬ isTPID (be16 data 12))
    (ht : tags.length = 1 ∨ tags.length = 2) :
    udpfilter (insertTags tags data) dropcnt =
      (udpfilter data dropcnt).map (Outcome.mapFrame (insertTags tags)) := by
  obtain ⟨mac, e0, e1, tl, hm, rfl⟩ := frame_split h14
  have hb : ∀ (x : Frame) (d : Nat), be16 (mac ++ x) (12 + d) = be16 x d := by
    intro x d
    rw [← hm, be16_append]
  have he : be16 (mac ++ e0 :: e1 :: tl) 12 = 256 * e0.val + e1.val := hb _ 0
  -- the untagged frame
  have hv0 : vlanTags (mac ++ e0 :: e1 :: tl) = 0 := by
    unfold vlanTags
    rw [if_neg hn]
  have hl0 : l3Offset (mac ++ e0 :: e1 :: tl) = (mac ++ [e0, e1]).length + 0 := by
    simp [l3Offset, hv0, hm]
  have hF : udpfilter (mac ++ e0 :: e1 :: tl) dropcnt =
      (dispatch tl dropcnt RETURNCODE 0 (htons (256 * e0.val + e1.val))).map
        (Outcome.behind (mac ++ [e0, e1])) := by
    rw [udpfilter_l2 dropcnt (by rw [hl0]; simp), hl0]
    unfold etherType
    rw [hv0, he, show mac ++ e0 :: e1 :: tl = (mac ++ [e0, e1]) ++ tl by simp,
      dispatch_append]
  have hout : ∀ x : Frame, insertTags tags ((mac ++ [e0, e1]) ++ x) =
      (mac ++ (tagBytes tags ++ [e0, e1])) ++ x := by
    intro x
    rw [show (mac ++ [e0, e1]) ++ x = mac ++ e0 :: e1 :: x by simp, insertTags_split tags hm]
    simp
  have hmap : (udpfilter (mac ++ e0 :: e1 :: tl) dropcnt).map
        (Outcome.mapFrame (insertTags tags)) =
      (dispatch tl dropcnt RETURNCODE 0 (htons (256 * e0.val + e1.val))).map
        (Outcome.behind (mac ++ (tagBytes tags ++ [e0, e1]))) := by
    rw [hF, Option.map_map]
    congr 1
    funext r
    simp only [Function.comp, Outcome.behind, Outcome.mapFrame, hout]
  rw [hmap, insertTags_split tags hm]
  rw [he] at hn
  -- the tagged frame
  match tags, ht with
  | [t1], _ =>
    have h1 := tpid_is_tpid t1
    have hq : mac ++ (tagBytes [t1] ++ e0 :: e1 :: tl) =
        (mac ++ (tagBytes [t1] ++ [e0, e1])) ++ tl := by simp [tagBytes]
    have hv : vlanTags (mac ++ (tagBytes [t1] ++ e0 :: e1 :: tl)) = 1 := by
      unfold vlanTags
      rw [hb _ 0, show (16 : Nat) = 12 + 4 by rfl, hb _ 4]
      simp only [tagBytes, VlanTag.wire, be16, byteAt]
      simp only [List.append_nil, List.nil_append, List.cons_append, List.getD_cons_zero,
        List.getD_cons_succ]
      rw [if_pos h1, if_neg hn]
    have hl : l3Offset (mac ++ (tagBytes [t1] ++ e0 :: e1 :: tl)) =
        (mac ++ (tagBytes [t1] ++ [e0, e1])).length + 0 := by
      unfold l3Offset
      rw [hv]
      simp [hm, tagBytes, VlanTag.wire]
    have hety : etherType (mac ++ (tagBytes [t1] ++ e0 :: e1 :: tl)) =
        256 * e0.val + e1.val := by
      unfold etherType
      rw [hv, show 12 + 4 * 1 = 12 + 4 by rfl, hb _ 4]
      simp only [tagBytes, VlanTag.wire, be16, byteAt]
      simp only [List.append_nil, List.nil_append, List.cons_append, List.getD_cons_zero,
        List.getD_cons_succ]
    rw [udpfilter_l2 dropcnt (by rw [hl, hq]; simp), hl, hety, hq, dispatch_append]
  | [t1, t2], _ =>
    have h1 := tpid_is_tpid t1
    have h2 := tpid_is_tpid t2
    have hq : mac ++ (tagBytes [t1, t2] ++ e0 :: e1 :: tl) =
        (mac ++ (tagBytes [t1, t2] ++ [e0, e1])) ++ tl := by simp [tagBytes]
    have hv : vlanTags (mac ++ (tagBytes [t1, t2] ++ e0 :: e1 :: tl)) = 2 := by
      unfold vlanTags
      rw [hb _ 0, show (16 : Nat) = 12 + 4 by rfl, hb _ 4]
      simp only [tagBytes, VlanTag.wire, be16, byteAt]
      simp only [List.append_nil, List.nil_append, List.cons_append, List.getD_cons_zero,
        List.getD_cons_succ]
      rw [if_pos h1, if_pos h2]
    have hl : l3Offset (mac ++ (tagBytes [t1, t2] ++ e0 :: e1 :: tl)) =
        (mac ++ (tagBytes [t1, t2] ++ [e0, e1])).length + 0 := by
      unfold l3Offset
      rw [hv]
      simp [hm, tagBytes, VlanTag.wire]
    have hety : etherType (mac ++ (tagBytes [t1, t2] ++ e0 :: e1 :: tl)) =
        256 * e0.val + e1.val := by
      unfold etherType
      rw [hv, show 12 + 4 * 2 = 12 + 8 by rfl, hb _ 8]
      simp only [tagBytes, VlanTag.wire, be16, byteAt]
      simp only [List.append_nil, List.nil_append, List.cons_append, List.getD_cons_zero,
        List.getD_cons_succ]
    rw [udpfilter_l2 dropcnt (by rw [hl, hq]; simp), hl, hety, hq, dispatch_append]

/-- C5 at the frame of scenario A behind an 802.1AD tag and an 802.1Q tag. -/
theorem C5_vlan_tags_transparent_witness :
    udpfilter (insertTags [⟨true, 0x00, 0x64⟩, ⟨false, 0x20, 0x07⟩] udpFrame) zeroTable =
      (udpfilter udpFrame zeroTable).map
        (Outcome.mapFrame (insertTags [⟨true, 0x00, 0x64⟩, ⟨false, 0x20, 0x07⟩])) :=
  C5_vlan_tags_transparent udpFrame [⟨true, 0x00, 0x64⟩, ⟨false, 0x20, 0x07⟩] zeroTable
    (by decide) (by decide) (by decide)

/-- C6: for every frame shorter than the 14-byte Ethernet header, and for every
20-byte frame, `udpfilter` returns `XDP_PASS`, leaves the frame unchanged and
changes no counter whose index is above 0. -/
theorem C6_short_frames_pass_uncounted (data : Frame) (dropcnt : CounterTable)
    (h : data.length < 14 ∨ data.length = 20) :
    ∃ r, udpfilter data dropcnt = some r ∧ r.rc = XDP_PASS ∧ r.frame = data ∧
      ∀ j : Fin 256, 0 < j.val → r.table j = dropcnt j := by
  by_cases h14 : data.length < 14
  · exact ⟨_, udpfilter_short dropcnt h14, rfl, rfl, fun _ _ => rfl⟩
  · have h20 : data.length = 20 := by omega
    by_cases hl : l3Offset data ≤ data.length
    · have h3 : 14 ≤ l3Offset data := by unfold l3Offset; omega
      refine ⟨_, by
        rw [udpfilter_l2 dropcnt hl]
        exact dispatch_cut data dropcnt RETURNCODE (be16_lt data (12 + 4 * vlanTags data))
          (by omega), rfl, rfl, fun j hj => ?_⟩
      show bump dropcnt 0 j = dropcnt j
      rw [bump_apply, if_neg (by omega)]
    · exact ⟨_, udpfilter_vlan_cut dropcnt (by omega) (by omega), rfl, rfl, fun _ _ => rfl⟩

/-- C6 at the 20-byte frame of scenario D. -/
theorem C6_short_frames_pass_uncounted_witness :
    ∃ r, udpfilter shortFrame zeroTable = some r ∧ r.rc = XDP_PASS ∧ r.frame = shortFrame ∧
      ∀ j : Fin 256, 0 < j.val → r.table j = zeroTable j :=
  C6_short_frames_pass_uncounted shortFrame zeroTable (Or.inr (by decide))

/-- C7: every run of `udpfilter` leaves the counter table unchanged or adds 1
(modulo `2 ^ 64`) to exactly one cell; hence after any finite sequence of frames,
started on a table of 64-bit cells, every cell `j` holds its initial value plus
the number of frames classified to index `j`, modulo `2 ^ 64`. -/
theorem C7_counters_count_classified_frames (frames : List Frame) (dropcnt : CounterTable)
    (hw : ∀ j, dropcnt j < 2 ^ 64) :
    (∀ (data : Frame) (t : CounterTable), ∃ r, udpfilter data t = some r ∧
      (r.table = t ∨ ∃ i, i < 256 ∧ r.table = bump t i)) ∧
    ∃ final, runFrames frames dropcnt = some final ∧
      ∀ j : Fin 256, final j = (dropcnt j + classifiedTo j.val frames) % 2 ^ 64 := by
  refine ⟨fun data t => ?_, runFrames_counts frames dropcnt hw⟩
  obtain ⟨frame, index, _, hidx, _, hrun⟩ := udpfilter_shape data
  refine ⟨_, hrun t, ?_⟩
  cases index with
  | none => exact Or.inl rfl
  | some i => exact Or.inr ⟨i, (hidx i rfl).2.1, rfl⟩

/-- C7 on four frames (two of scenario A, a fragment, a frame cut inside its VLAN
header) started on the zero table. -/
theorem C7_counters_count_classified_frames_witness :
    (∀ (data : Frame) (t : CounterTable), ∃ r, udpfilter data t = some r ∧
      (r.table = t ∨ ∃ i, i < 256 ∧ r.table = bump t i)) ∧
    ∃ final, runFrames [udpFrame, fragFrame, tagOnlyFrame, udpFrame] zeroTable = some final ∧
      ∀ j : Fin 256, final j =
        (zeroTable j + classifiedTo j.val [udpFrame, fragFrame, tagOnlyFrame, udpFrame])
          % 2 ^ 64 :=
  C7_counters_count_classified_frames [udpFrame, fragFrame, tagOnlyFrame, udpFrame] zeroTable
    (fun _ => Nat.two_pow_pos 64)

/-- C8 as stated fails.  `tagOnlyFrame` holds a full 14-byte Ethernet header (of
ethertype 0x8100) and nothing else; `udpfilter` returns at line 108, before the
counting step, and every counter keeps its value. -/
theorem C8_counterexample :
    14 ≤ tagOnlyFrame.length ∧
    (udpfilter tagOnlyFrame zeroTable).map (fun r => r.index) = some none ∧
    ∀ j : Fin 256,
      (udpfilter tagOnlyFrame zeroTable).map (fun r => r.table j) = some (zeroTable j) := by
  have hrun := @udpfilter_vlan_cut tagOnlyFrame zeroTable (by decide) (by decide)
  rw [hrun]
  exact ⟨by decide, rfl, fun _ => rfl⟩

/-- C8 (amended): for every frame that holds the 14-byte Ethernet header and the
complete 4-byte header of each of its leading VLAN tags (at most two),
`udpfilter` increments exactly one counter entry by 1 (index 0 included),
whatever the IPv4, IPv6 or UDP parser finds after them. -/
theorem C8_one_counter_per_frame (data : Frame) (dropcnt : CounterTable)
    (hl : l3Offset data ≤ data.length) :
    ∃ r i, udpfilter data dropcnt = some r ∧ i < 256 ∧ r.index = some i ∧
      r.table = bump dropcnt i := by
  obtain ⟨frame, index, _, hidx, hnone, hrun⟩ := udpfilter_shape data
  cases index with
  | none => exact absurd (hnone rfl).1 (by omega)
  | some i => exact ⟨_, i, hrun dropcnt, (hidx i rfl).2.1, rfl, rfl⟩

/-- C8 (amended) at the 20-byte frame of scenario D, whose IPv4 header is truncated. -/
theorem C8_one_counter_per_frame_witness :
    ∃ r i, udpfilter shortFrame zeroTable = some r ∧ i < 256 ∧ r.index = some i ∧
      r.table = bump zeroTable i :=
  C8_one_counter_per_frame shortFrame zeroTable (by decide)

/-- C9: every run of `udpfilter` returns, and when it reaches the counting step
the index it hands to `dropcnt.lookup` is 0, `XDP_DROP`, the IPv4 protocol byte or
the IPv6 next-header byte; it is below 256, so the lookup finds a cell and the
cell is incremented. -/
theorem C9_index_within_table (data : Frame) (dropcnt : CounterTable) :
    ∃ r, udpfilter data dropcnt = some r ∧
      ∀ i, r.index = some i →
        (i = 0 ∨ i = XDP_DROP ∨ i = ipProtocol data (l3Offset data) ∨
          i = byteAt data (l3Offset data + 6)) ∧
        i < 256 ∧ (lookup i).isSome ∧ r.table = bump dropcnt i := by
  obtain ⟨frame, index, _, hidx, _, hrun⟩ := udpfilter_shape data
  refine ⟨_, hrun dropcnt, fun i hi => ?_⟩
  have hi2 : index = some i := hi
  subst hi2
  obtain ⟨_, hlt, hk⟩ := hidx i rfl
  refine ⟨hk, hlt, ?_, rfl⟩
  unfold lookup
  rw [dif_pos hlt]
  rfl

/-- C10: a checked access succeeds exactly when all its bytes lie below the frame
length, and for every frame (the empty one included) `udpfilter` never performs
an access that fails; the same holds for its VLAN block, `parse_ipv4`,
`parse_ipv6` and `parse_udp` at each offset that `udpfilter` passes to them (14
or 18 for the VLAN block, 14, 18 or 22 for the IP parsers and 20 more for
`parse_udp`): each returns a result. -/
theorem C10_no_access_outside_frame (data : Frame) :
    (∀ off, (load8 data off).isSome ↔ off < data.length) ∧
    (∀ off, (load16 data off).isSome ↔ off + 1 < data.length) ∧
    (∀ off, (load32 data off).isSome ↔ off + 3 < data.length) ∧
    (∀ off v, (store16 data off v).isSome ↔ off + 1 < data.length) ∧
    (∀ dropcnt, (udpfilter data dropcnt).isSome) ∧
    (∀ nh_off h_proto, nh_off = 14 ∨ nh_off = 18 →
      vlan_block data nh_off h_proto ≠ .fault) ∧
    (∀ nh_off, nh_off = 14 ∨ nh_off = 18 ∨ nh_off = 22 →
      (parse_ipv4 data nh_off).isSome ∧ (parse_ipv6 data nh_off).isSome ∧
        ∀ pkt, (parse_udp data (nh_off + 20) pkt).isSome) := by
  refine ⟨load8_isSome data, load16_isSome data, load32_isSome data, store16_isSome data,
    fun dropcnt => ?_, fun nh_off h_proto _ => vlan_block_no_fault data nh_off h_proto,
    fun nh_off _ => ⟨?_, ?_, fun pkt => parse_udp_isSome data (nh_off + 20) pkt⟩⟩
  · obtain ⟨frame, index, _, _, _, hrun⟩ := udpfilter_shape data
    rw [hrun dropcnt]
    rfl
  · obtain ⟨i, frame, e, _, _⟩ := parse_ipv4_total data nh_off
    rw [e]
    rfl
  · obtain ⟨i, e, _⟩ := parse_ipv6_total data nh_off
    rw [e]
    rfl

/-- C11: for every frame with a complete Ethernet header and complete VLAN
headers (at most two), if the final ethertype is neither IPv4 nor IPv6, or it is
IPv4 with fewer than 20 bytes after the layer-2 headers, or IPv6 with fewer than
40, then `udpfilter` increments exactly `CounterTable[0]` by 1, returns
`XDP_PASS` and leaves the frame unchanged. -/
theorem C11_unparsed_frames_count_at_zero (data : Frame) (dropcnt : CounterTable)
    (hl : l3Offset data ≤ data.length)
    (h : (etherType data ≠ ETH_P_IP ∧ etherType data ≠ ETH_P_IPV6) ∨
      (etherType data = ETH_P_IP ∧ data.length < l3Offset data + 20) ∨
      (etherType data = ETH_P_IPV6 ∧ data.length < l3Offset data + 40)) :
    udpfilter data dropcnt = some ⟨XDP_PASS, data, bump dropcnt 0, some 0⟩ := by
  rw [udpfilter_l2 dropcnt hl]
  rcases h with ⟨h4, h6⟩ | ⟨h4, hcut⟩ | ⟨h6, hcut⟩
  · exact dispatch_other _ _ _ _ (be16_lt data (12 + 4 * vlanTags data)) h4 h6
  · rw [h4, dispatch_ipv4, parse_ipv4_cut hcut]
    exact count_step _ _ _ (by decide : 0 < 256)
  · rw [h6]
    exact dispatch_ipv6 _ _ _ _ (by decide : 0 < 256) (parse_ipv6_cut hcut)

/-- C11 at an ARP frame. -/
theorem C11_unparsed_frames_count_at_zero_witness :
    udpfilter arpFrame zeroTable = some ⟨XDP_PASS, arpFrame, bump zeroTable 0, some 0⟩ :=
  C11_unparsed_frames_count_at_zero arpFrame zeroTable (by decide)
    (Or.inl ⟨by decide, by decide⟩)

/-- C12: for every frame whose ethertype after at most two VLAN tags is IPv6 and
that holds a complete 40-byte IPv6 header, `udpfilter` increments exactly
`CounterTable[n]` by 1, where `n` is the next-header byte (header byte 6), and
leaves every byte of the frame unchanged. -/
theorem C12_ipv6_counts_next_header (data : Frame) (dropcnt : CounterTable)
    (he : etherType data = ETH_P_IPV6) (hl : l3Offset data + 40 ≤ data.length) :
    udpfilter data dropcnt =
      some ⟨XDP_PASS, data, bump dropcnt (byteAt data (l3Offset data + 6)),
        some (byteAt data (l3Offset data + 6))⟩ := by
  rw [udpfilter_l2 dropcnt (by omega), he]
  exact dispatch_ipv6 _ _ _ _ (byteAt_lt _ _) (parse_ipv6_full hl)

/-- C12 at a double-tagged IPv6 frame that carries UDP to port 6081: the counted
index is 17 and the port bytes stay 6081. -/
theorem C12_ipv6_counts_next_header_witness :
    byteAt ipv6UdpFrame (l3Offset ipv6UdpFrame + 6) = 17 ∧
    be16 ipv6UdpFrame (l3Offset ipv6UdpFrame + 40 + 2) = 6081 ∧
    udpfilter ipv6UdpFrame zeroTable =
      some ⟨XDP_PASS, ipv6UdpFrame,
        bump zeroTable (byteAt ipv6UdpFrame (l3Offset ipv6UdpFrame + 6)),
        some (byteAt ipv6UdpFrame (l3Offset ipv6UdpFrame + 6))⟩ :=
  ⟨by decide, by decide,
    C12_ipv6_counts_next_header ipv6UdpFrame zeroTable (by decide) (by decide)⟩

/-- C13: for every IPv4 frame whose fragmentation marker is set, `udpfilter`
returns the frame with every byte unchanged, whatever the protocol byte and the
bytes at the UDP destination-port position are. -/
theorem C13_fragment_not_rewritten (data : Frame) (dropcnt : CounterTable)
    (_he : etherType data = ETH_P_IP) (hf : fragmented data (l3Offset data)) :
    ∃ r, udpfilter data dropcnt = some r ∧ r.frame = data := by
  obtain ⟨index, _, hrun⟩ := udpfilter_effect data
  have hno : ¬ rewriteFires data := fun h => h.2.2.2.1 hf
  refine ⟨_, hrun dropcnt, ?_⟩
  show (if rewriteFires data then data.set (l3Offset data + 23) 0xC2 else data) = data
  rw [if_neg hno]

/-- C13 at the fragment of scenario B, whose protocol is 17 and whose bytes at the
UDP destination-port position are 6081. -/
theorem C13_fragment_not_rewritten_witness :
    ipProtocol fragFrame (l3Offset fragFrame) = 17 ∧
    be16 fragFrame (l3Offset fragFrame + 22) = 6081 ∧
    ∃ r, udpfilter fragFrame zeroTable = some r ∧ r.frame = fragFrame :=
  ⟨by decide, by decide,
    C13_fragment_not_rewritten fragFrame zeroTable (by decide) (by decide)⟩

/-- C14: for every frame that is not an IPv4 frame with a complete header and the
fragmentation marker set, `udpfilter` returns the configured default verdict
`XDP_PASS`. -/
theorem C14_other_frames_pass (data : Frame) (dropcnt : CounterTable)
    (_h : ¬ (etherType data = ETH_P_IP ∧ l3Offset data + 20 ≤ data.length ∧
      fragmented data (l3Offset data))) :
    ∃ r, udpfilter data dropcnt = some r ∧ r.rc = XDP_PASS ∧ RETURNCODE = XDP_PASS := by
  obtain ⟨index, _, hrun⟩ := udpfilter_effect data
  exact ⟨_, hrun dropcnt, rfl, rfl⟩

/-- C14 at the double-tagged IPv6 frame. -/
theorem C14_other_frames_pass_witness :
    ∃ r, udpfilter ipv6UdpFrame zeroTable = some r ∧ r.rc = XDP_PASS ∧
      RETURNCODE = XDP_PASS :=
  C14_other_frames_pass ipv6UdpFrame zeroTable (by decide)

/-- C18: on the little-endian host, for every value of IPv4 header bytes 6-7, the
test `iph->frag_off & 65343` is non-zero exactly when the More-Fragments flag is
set or the 13-bit fragment offset is not zero; replacing byte 6 by any byte with
the same low six bits (that is, changing the reserved and Don't-Fragment bits)
does not change the outcome of the test. -/
theorem C18_fragment_test_bits (data : Frame) (l3 : Nat) (h : l3 + 8 ≤ data.length) :
    ∃ frag_off, load16 data (l3 + 6) = some frag_off ∧
      (frag_off &&& IP_FRAGMENTED ≠ 0 ↔
        (moreFragments data l3 = true ∨ fragmentOffset data l3 ≠ 0)) ∧
      ∀ b : Byte, b.val % 64 = byteAt data (l3 + 6) % 64 →
        ∃ frag_off2, load16 (data.set (l3 + 6) b) (l3 + 6) = some frag_off2 ∧
          (frag_off2 &&& IP_FRAGMENTED ≠ 0 ↔ frag_off &&& IP_FRAGMENTED ≠ 0) := by
  refine ⟨_, load16_of_lt (by omega), frag_test_fragmented data l3, fun b hb => ?_⟩
  refine ⟨_, load16_of_lt (by rw [List.length_set]; omega), ?_⟩
  rw [frag_test_fragmented, frag_test_fragmented]
  unfold fragmented moreFragments fragmentOffset
  rw [byteAt_set_self b (by omega), byteAt_set_ne data b (by omega)]
  have e1 : b.val / 32 % 2 = byteAt data (l3 + 6) / 32 % 2 := by omega
  have e2 : b.val % 32 = byteAt data (l3 + 6) % 32 := by omega
  rw [e1, e2]

/-- C18 at the frame of scenario A, whose Don't-Fragment bit is set. -/
theorem C18_fragment_test_bits_witness :
    byteAt udpFrame (14 + 6) = 0x40 ∧
    ∃ frag_off, load16 udpFrame (14 + 6) = some frag_off ∧
      (frag_off &&& IP_FRAGMENTED ≠ 0 ↔
        (moreFragments udpFrame 14 = true ∨ fragmentOffset udpFrame 14 ≠ 0)) ∧
      ∀ b : Byte, b.val % 64 = byteAt udpFrame (14 + 6) % 64 →
        ∃ frag_off2, load16 (udpFrame.set (14 + 6) b) (14 + 6) = some frag_off2 ∧
          (frag_off2 &&& IP_FRAGMENTED ≠ 0 ↔ frag_off &&& IP_FRAGMENTED ≠ 0) :=
  ⟨by decide, C18_fragment_test_bits udpFrame 14 (by decide)⟩

/-- C19: `udpfilter` changes the frame if and only if the rewrite condition holds
(final ethertype IPv4, at least 28 bytes from the layer-3 offset `L2`, protocol
byte 17, fragmentation marker clear, bytes `L2+22`, `L2+23` equal to 0x17 0xC1);
then the output has the same length and is the input with byte `L2+23` set to
0xC2, and otherwise the output is the input.  The byte at `L2`, which holds the
IHL field, has no influence: replacing it by any byte replaces it in the output
and changes nothing else. -/
theorem C19_frame_effect (data : Frame) (dropcnt : CounterTable) :
    ∃ r, udpfilter data dropcnt = some r ∧
      (r.frame ≠ data ↔ rewriteFires data) ∧
      (rewriteFires data →
        r.frame.length = data.length ∧ r.frame = data.set (l3Offset data + 23) 0xC2) ∧
      (¬ rewriteFires data → r.frame = data) ∧
      ∀ b : Byte, (udpfilter (data.set (l3Offset data) b) dropcnt).map (fun q => q.frame) =
        some (r.frame.set (l3Offset data) b) := by
  obtain ⟨index, _, hrun⟩ := udpfilter_effect data
  refine ⟨_, hrun dropcnt, ?_, ?_, ?_, ?_⟩
  · show (if rewriteFires data then data.set (l3Offset data + 23) 0xC2 else data) ≠ data ↔ _
    constructor
    · intro hne
      by_contra hno
      rw [if_neg hno] at hne
      exact hne rfl
    · intro hfire heq
      rw [if_pos hfire] at heq
      have h1 : byteAt (data.set (l3Offset data + 23) 0xC2) (l3Offset data + 23) = 0xC2 :=
        byteAt_set_self _ (by have := hfire.2.1; omega)
      rw [heq, hfire.2.2.2.2.2] at h1
      exact absurd h1 (by decide)
  · intro hfire
    show (if rewriteFires data then data.set (l3Offset data + 23) 0xC2 else data).length = _ ∧
      (if rewriteFires data then data.set (l3Offset data + 23) 0xC2 else data) = _
    rw [if_pos hfire]
    exact ⟨List.length_set _ _ _, rfl⟩
  · intro hno
    show (if rewriteFires data then data.set (l3Offset data + 23) 0xC2 else data) = data
    rw [if_neg hno]
  · intro b
    obtain ⟨index2, _, hrun2⟩ := udpfilter_effect (data.set (l3Offset data) b)
    rw [hrun2 dropcnt]
    show some (if rewriteFires (data.set (l3Offset data) b) then
        (data.set (l3Offset data) b).set (l3Offset (data.set (l3Offset data) b) + 23) 0xC2
      else data.set (l3Offset data) b) =
      some ((if rewriteFires data then data.set (l3Offset data + 23) 0xC2 else data).set
        (l3Offset data) b)
    rw [(fields_set data b (Or.inl rfl)).1]
    by_cases hfire : rewriteFires data
    · rw [if_pos hfire, if_pos ((rewriteFires_set_l3 data b).2 hfire),
        List.set_comm _ _ _ (by omega)]
    · rw [if_neg hfire, if_neg (mt (rewriteFires_set_l3 data b).1 hfire)]

/-- C20: for every frame, a second run of `udpfilter` on the frame that the first
run produced returns that frame unchanged, with the same counted index and the
same returned action as the first run. -/
theorem C20_second_run_changes_nothing (data : Frame) (t1 t2 : CounterTable) :
    ∃ r1 r2, udpfilter data t1 = some r1 ∧ udpfilter r1.frame t2 = some r2 ∧
      r2.frame = r1.frame ∧ r2.index = r1.index ∧ r2.rc = r1.rc := by
  obtain ⟨index, h17, hrun⟩ := udpfilter_effect data
  by_cases hfire : rewriteFires data
  · obtain ⟨he, hlen, hp, hf, hd⟩ := (rewriteFires_iff data).1 hfire
    obtain ⟨f1, f2, f3, f4, f5⟩ :=
      fields_set data (0xC2 : Byte) (Or.inr rfl : l3Offset data + 23 = l3Offset data ∨ _)
    have hd2 : be16 (data.set (l3Offset data + 23) 0xC2) (l3Offset data + 22) ≠ 6081 := by
      unfold be16
      rw [f5, byteAt_set_self _ (by omega)]
      have := byteAt_lt data (l3Offset data + 22)
      have h194 : ((0xC2 : Byte) : Nat) = 194 := rfl
      omega
    have hrun2 : udpfilter (data.set (l3Offset data + 23) 0xC2) t2 =
        some ⟨XDP_PASS, data.set (l3Offset data + 23) 0xC2, bump t2 17, some 17⟩ := by
      apply udpfilter_ipv4 t2 (by rw [f2]; exact he)
        (by rw [f1, List.length_set]; omega) (by decide : 17 < 256)
      rw [f1]
      exact parse_ipv4_udp_miss (mt f4.1 hf) (by rw [f3]; exact hp)
        (by rw [List.length_set]; exact hlen) hd2
    refine ⟨_, ⟨XDP_PASS, data.set (l3Offset data + 23) 0xC2, bump t2 17, some 17⟩,
      hrun t1, ?_, (if_pos hfire).symm, (h17 hfire).symm, rfl⟩
    show udpfilter (if rewriteFires data then data.set (l3Offset data + 23) 0xC2
      else data) t2 = _
    rw [if_pos hfire]
    exact hrun2
  · refine ⟨_, ⟨XDP_PASS, data, tableAfter t2 index, index⟩, hrun t1, ?_,
      (if_neg hfire).symm, rfl, rfl⟩
    show udpfilter (if rewriteFires data then data.set (l3Offset data + 23) 0xC2
      else data) t2 = _
    rw [if_neg hfire, hrun t2, if_neg hfire]

/-- C15 does not hold on the code.  In `oneSignalWorld` the filter is attached and
one SIGINT arrives: the receive of line 186 takes it and drops it, `RemoveXDP` is
not called and the process does not exit.  Only the next signal is handled: in
`twoSignalWorld` the second one leads to one `RemoveXDP` and `os.Exit(1)`. -/
theorem C15_first_signal_is_dropped :
    attached oneSignalWorld ∧ oneSignalWorld.sigCh = [Signal.SIGINT] ∧
    detachCalls (main oneSignalWorld) = 0 ∧ exitStatus (main oneSignalWorld) = none ∧
    attached twoSignalWorld ∧ twoSignalWorld.sigCh = [Signal.SIGINT, Signal.SIGTERM] ∧
    detachCalls (main twoSignalWorld) = 1 ∧ exitStatus (main twoSignalWorld) = some 1 :=
  ⟨⟨⟨"eth0", rfl⟩, rfl, rfl⟩, rfl, by decide, by decide,
    ⟨⟨"eth0", rfl⟩, rfl, rfl⟩, rfl, by decide, by decide⟩

/-- C16 as stated fails.  In `hangupWorld` the filter is attached and one SIGHUP
is sent: line 178 registers only SIGTERM and SIGINT, so the default action of
SIGHUP ends the process; the run ends with no call of `RemoveXDP` and not through
`os.Exit`, so not with status 1. -/
theorem C16_counterexample :
    attached hangupWorld ∧ ended (main hangupWorld) = true ∧
    detachCalls (main hangupWorld) = 0 ∧ exitStatus (main hangupWorld) = none ∧
    killedBy (main hangupWorld) = some Signal.SIGHUP :=
  ⟨⟨⟨"eth0", rfl⟩, rfl, rfl⟩, by decide, by decide, by decide, by decide⟩

/-- C16 (amended): in every run of `main` that ends and is not ended by the
default action of a signal that `main` does not register, the process exits with
status 1; `RemoveXDP` is called exactly once if the filter was attached and never
if `Load` or `AttachXDP` failed; and when that `RemoveXDP` fails its error is
written to standard error (and the run still ends with status 1). -/
theorem C16_detach_once_then_exit_one (w : World)
    (hend : ended (main w) = true) (hk : killedBy (main w) = none) :
    exitStatus (main w) = some 1 ∧
    (attached w → detachCalls (main w) = 1) ∧
    (w.loadErr ≠ none ∨ w.attachErr ≠ none → detachCalls (main w) = 0) ∧
    (∀ device err, attached w → w.params = [device] → w.removeErr = some err →
      Event.stderr ("Failed to remove XDP from " ++ device ++ ": " ++ err ++ "\n") ∈
        main w) := by
  obtain ⟨status, hterm⟩ := exit_of_ended hend hk
  obtain ⟨h1, h2, h3, h4⟩ := main_exit w status hterm
  subst h1
  exact ⟨hterm, h2, h3, h4⟩

/-- C16 (amended) at a run that is attached, receives a SIGINT and a SIGTERM and
fails to detach. -/
theorem C16_detach_once_then_exit_one_witness :
    attached twoSignalWorld ∧ twoSignalWorld.removeErr = some "no such device" ∧
    (exitStatus (main twoSignalWorld) = some 1 ∧
    (attached twoSignalWorld → detachCalls (main twoSignalWorld) = 1) ∧
    (twoSignalWorld.loadErr ≠ none ∨ twoSignalWorld.attachErr ≠ none →
      detachCalls (main twoSignalWorld) = 0) ∧
    (∀ device err, attached twoSignalWorld → twoSignalWorld.params = [device] →
      twoSignalWorld.removeErr = some err →
      Event.stderr ("Failed to remove XDP from " ++ device ++ ": " ++ err ++ "\n") ∈
        main twoSignalWorld)) :=
  ⟨⟨⟨"eth0", rfl⟩, rfl, rfl⟩, rfl,
    C16_detach_once_then_exit_one twoSignalWorld (by decide) (by decide)⟩

/-- C17: for every snapshot (the entries that the iterator yields, in its order),
one pass of the reporting loop appends to standard output exactly the lines
`<key>: <count> pkts` of the entries whose 64-bit count is greater than zero, one
line each and in iteration order, and nothing for an entry whose count is zero. -/
theorem C17_report_prints_positive_entries (snapshot : List Entry) (out : List String) :
    reportPass snapshot out =
      out ++ (snapshot.filter fun e => decide (0 < hostUint64 e.leaf)).map reportLine := by
  induction snapshot generalizing out with
  | nil => simp [reportPass]
  | cons e rest ih =>
    unfold reportPass
    rw [ih, reportEntry_eq, List.filter_cons]
    by_cases h : 0 < hostUint64 e.leaf
    · simp [h]
    · simp [h]

end XdpApp
